import Mathlib

/-!
# Verification of `claude-spec-workflow` (Python) against its specification

This file gives a shallow embedding in Lean 4 of the parts of the
`spec_driven_workflow` Python package that the verified claims are about:

* `auto_run_models.py` — `TaskStatus`, `TaskResult`, `AutoRunResult`,
  `AutoRunOptions`, `ExecutionState` and their operations;
* `auto_runner.py` — task selection (`_filter_tasks`, `_parse_task_selection`,
  `_generate_task_range`, `_sort_tasks_hierarchically`), the tasks-document
  checkbox rewrite (`_mark_task_complete`) and the execution-state update
  (`_update_execution_state`);
* `git.py` — `GitUtils._convert_to_github_url`;
* `migration.py` — `MigrationManager.detect_typescript_installation`;
* `dashboard/parser.py` — the status computation of `SpecParser.get_spec`
  together with the task-line parsing it consumes.

Python `float` timestamps are modelled as `Int`: the embedded operations never
perform arithmetic on them, they are only stored, copied and compared to `0`,
so any type with decidable equality is faithful for the properties proved here.
Python exceptions are modelled with `Except String` / `Option`, and Python's
mutation of objects is modelled by explicit state passing.
-/

/-! ## `auto_run_models.py` -/

/-- `TaskStatus` enumeration (`auto_run_models.py`). -/
inductive TaskStatus where
  | success
  | failed
  | skipped
  | running
  | pending
deriving DecidableEq, Repr

/-- `TaskResult` (`auto_run_models.py`), restricted to the fields read or
written by the operations embedded in this file (`task_id`,
`task_description`, `status`).  The timing floats (`execution_time`,
`start_time`, `end_time`) and the optional metadata fields are never consulted
by `AutoRunResult.add_task_result`, `AutoRunResult.update_last_task_result`
or `TaskAutoRunner._update_execution_state`. -/
structure TaskResult where
  task_id : String
  task_description : String
  status : TaskStatus
deriving DecidableEq, Repr

/-- `AutoRunResult` (`auto_run_models.py`), restricted to the summary counters
and the result list; the timing fields and `summary_message` are not read by
the embedded operations.  Counters are Python `int`s, modelled as `Int`. -/
structure AutoRunResult where
  spec_name : String
  total_tasks : Int
  executed_tasks : Int
  successful_tasks : Int
  failed_tasks : Int
  skipped_tasks : Int
  task_results : List TaskResult
deriving DecidableEq, Repr

/-- The dataclass constructor with its default field values:
`executed_tasks = successful_tasks = failed_tasks = skipped_tasks = 0`,
`task_results = []`. -/
def AutoRunResult.mk0 (spec_name : String) (total_tasks : Int) : AutoRunResult :=
  { spec_name := spec_name
    total_tasks := total_tasks
    executed_tasks := 0
    successful_tasks := 0
    failed_tasks := 0
    skipped_tasks := 0
    task_results := [] }

/-- `AutoRunResult.add_task_result`: append the result, bump
`executed_tasks`, and bump the counter matching the result's status
(the `if/elif` chain counts nothing for `RUNNING`/`PENDING`). -/
def AutoRunResult.add_task_result (r : AutoRunResult) (result : TaskResult) :
    AutoRunResult :=
  let r := { r with
    task_results := r.task_results ++ [result]
    executed_tasks := r.executed_tasks + 1 }
  if result.status = TaskStatus.success then
    { r with successful_tasks := r.successful_tasks + 1 }
  else if result.status = TaskStatus.failed then
    { r with failed_tasks := r.failed_tasks + 1 }
  else if result.status = TaskStatus.skipped then
    { r with skipped_tasks := r.skipped_tasks + 1 }
  else r

/-- Decrement the counter matching `status` (the `if/elif` chain in
`update_last_task_result` that removes the old result's contribution). -/
def AutoRunResult.subStatus (r : AutoRunResult) (status : TaskStatus) :
    AutoRunResult :=
  if status = TaskStatus.success then
    { r with successful_tasks := r.successful_tasks - 1 }
  else if status = TaskStatus.failed then
    { r with failed_tasks := r.failed_tasks - 1 }
  else if status = TaskStatus.skipped then
    { r with skipped_tasks := r.skipped_tasks - 1 }
  else r

/-- Increment the counter matching `status` (the second `if/elif` chain in
`update_last_task_result`). -/
def AutoRunResult.bumpStatus (r : AutoRunResult) (status : TaskStatus) :
    AutoRunResult :=
  if status = TaskStatus.success then
    { r with successful_tasks := r.successful_tasks + 1 }
  else if status = TaskStatus.failed then
    { r with failed_tasks := r.failed_tasks + 1 }
  else if status = TaskStatus.skipped then
    { r with skipped_tasks := r.skipped_tasks + 1 }
  else r

/-- `AutoRunResult.update_last_task_result`: with no previous results it
delegates to `add_task_result`; otherwise it removes the last result's
contribution from the counters, replaces the last element of `task_results`,
and adds the new result's contribution. -/
def AutoRunResult.update_last_task_result (r : AutoRunResult)
    (result : TaskResult) : AutoRunResult :=
  match r.task_results.getLast? with
  | none => r.add_task_result result
  | some old =>
    let r := r.subStatus old.status
    let r := { r with task_results := r.task_results.dropLast ++ [result] }
    r.bumpStatus result.status

/-- `AutoRunResult.success_rate` property: `successful/executed` as an exact
rational, `0.0` when nothing was executed. -/
def AutoRunResult.success_rate (r : AutoRunResult) : ℚ :=
  if r.executed_tasks = 0 then 0
  else (r.successful_tasks : ℚ) / (r.executed_tasks : ℚ)

/-- `AutoRunResult.is_successful` property:
`failed_tasks == 0 and executed_tasks > 0`. -/
def AutoRunResult.is_successful (r : AutoRunResult) : Bool :=
  r.failed_tasks = 0 && r.executed_tasks > 0

/-- A call in a sequence of result-recording operations on an
`AutoRunResult`. -/
inductive AutoRunCall where
  | add (result : TaskResult)
  | updateLast (result : TaskResult)
deriving DecidableEq, Repr

/-- The task result carried by a call. -/
def AutoRunCall.result : AutoRunCall → TaskResult
  | .add r => r
  | .updateLast r => r

/-- Apply one call. -/
def AutoRunResult.applyCall (r : AutoRunResult) : AutoRunCall → AutoRunResult
  | .add result => r.add_task_result result
  | .updateLast result => r.update_last_task_result result

/-- Apply a sequence of calls. -/
def AutoRunResult.applyCalls (r : AutoRunResult) (calls : List AutoRunCall) :
    AutoRunResult :=
  calls.foldl AutoRunResult.applyCall r

/-! ## `ExecutionState` and `AutoRunOptions` (`auto_run_models.py`) -/

/-- `ExecutionMode` enumeration. -/
inductive ExecutionMode where
  | automatic
  | interactive
deriving DecidableEq, Repr

/-- The `.value` string of an `ExecutionMode` member. -/
def ExecutionMode.value : ExecutionMode → String
  | .automatic => "automatic"
  | .interactive => "interactive"

/-- `ExecutionMode(value)` lookup by value; `none` models the `ValueError`
raised on an unknown value. -/
def ExecutionMode.ofValue : String → Option ExecutionMode
  | "automatic" => some ExecutionMode.automatic
  | "interactive" => some ExecutionMode.interactive
  | _ => none

/-- `AutoRunOptions` dataclass fields. -/
structure AutoRunOptions where
  execution_mode : ExecutionMode
  task_selection : Option String
  continue_on_error : Bool
  show_detailed_progress : Bool
  resume_from_task : Option String
deriving DecidableEq, Repr

/-- `AutoRunOptions.__post_init__`: a `None` `task_selection` is replaced by
`"all"`. -/
def AutoRunOptions.postInit (o : AutoRunOptions) : AutoRunOptions :=
  if o.task_selection = none then { o with task_selection := some "all" } else o

/-- The `AutoRunOptions(...)` constructor (field assignment followed by
`__post_init__`). -/
def AutoRunOptions.make (execution_mode : ExecutionMode)
    (task_selection : Option String) (continue_on_error : Bool)
    (show_detailed_progress : Bool) (resume_from_task : Option String) :
    AutoRunOptions :=
  AutoRunOptions.postInit
    { execution_mode := execution_mode
      task_selection := task_selection
      continue_on_error := continue_on_error
      show_detailed_progress := show_detailed_progress
      resume_from_task := resume_from_task }

/-- `ExecutionState` dataclass fields.  `start_time` and `last_updated` are
Python floats, modelled as `Int` (see the file header). -/
structure ExecutionState where
  spec_name : String
  start_time : Int
  last_updated : Int
  options : AutoRunOptions
  completed_task_ids : List String
  failed_task_ids : List String
  skipped_task_ids : List String
  current_task_id : Option String
  total_tasks : Int
  interruption_reason : Option String
deriving DecidableEq, Repr

/-- `ExecutionState.__post_init__`: `last_updated` is set to the current time
when it is `0` (the `hasattr` conjunct is always true for a dataclass field).
`now` stands for `time.time()`. -/
def ExecutionState.postInit (now : Int) (s : ExecutionState) : ExecutionState :=
  if s.last_updated = 0 then { s with last_updated := now } else s

/-- The `ExecutionState(...)` constructor (field assignment followed by
`__post_init__`). -/
def ExecutionState.make (now : Int) (s : ExecutionState) : ExecutionState :=
  ExecutionState.postInit now s

/-- `ExecutionState.is_resumable` property. -/
def ExecutionState.is_resumable (s : ExecutionState) : Bool :=
  decide ((s.completed_task_ids.length : Int) < s.total_tasks) &&
  decide ((0 : Int) < s.total_tasks) &&
  (!s.current_task_id.isNone || decide (0 < s.completed_task_ids.length))

/-- The dictionary produced by `AutoRunOptions` serialization inside
`ExecutionState.to_dict` (the `'options'` sub-record). -/
structure OptionsDict where
  execution_mode : String
  task_selection : Option String
  continue_on_error : Bool
  show_detailed_progress : Bool
  resume_from_task : Option String
deriving DecidableEq, Repr

/-- The dictionary produced by `ExecutionState.to_dict`. -/
structure StateDict where
  spec_name : String
  start_time : Int
  last_updated : Int
  options : OptionsDict
  completed_task_ids : List String
  failed_task_ids : List String
  skipped_task_ids : List String
  current_task_id : Option String
  total_tasks : Int
  interruption_reason : Option String
deriving DecidableEq, Repr

/-- `ExecutionState.to_dict`. -/
def ExecutionState.to_dict (s : ExecutionState) : StateDict :=
  { spec_name := s.spec_name
    start_time := s.start_time
    last_updated := s.last_updated
    options :=
      { execution_mode := s.options.execution_mode.value
        task_selection := s.options.task_selection
        continue_on_error := s.options.continue_on_error
        show_detailed_progress := s.options.show_detailed_progress
        resume_from_task := s.options.resume_from_task }
    completed_task_ids := s.completed_task_ids
    failed_task_ids := s.failed_task_ids
    skipped_task_ids := s.skipped_task_ids
    current_task_id := s.current_task_id
    total_tasks := s.total_tasks
    interruption_reason := s.interruption_reason }

/-- `ExecutionState.from_dict`: rebuild the options through the
`AutoRunOptions` constructor, then the state through the `ExecutionState`
constructor (both of which run `__post_init__`).  All keys are present in a
`StateDict`, so the `.get` defaults of the Python code are not exercised;
`none` models the `ValueError` that `ExecutionMode(value)` raises on an
unknown mode string.  `now` stands for `time.time()` at deserialization
time. -/
def ExecutionState.from_dict (now : Int) (data : StateDict) :
    Option ExecutionState := do
  let mode ← ExecutionMode.ofValue data.options.execution_mode
  let options := AutoRunOptions.make mode data.options.task_selection
    data.options.continue_on_error data.options.show_detailed_progress
    data.options.resume_from_task
  some (ExecutionState.make now
    { spec_name := data.spec_name
      start_time := data.start_time
      last_updated := data.last_updated
      options := options
      completed_task_ids := data.completed_task_ids
      failed_task_ids := data.failed_task_ids
      skipped_task_ids := data.skipped_task_ids
      current_task_id := data.current_task_id
      total_tasks := data.total_tasks
      interruption_reason := data.interruption_reason })

/-! ## `TaskAutoRunner._update_execution_state` (`auto_runner.py`)

The Python method guards each `list.remove` with a membership test;
`if x in l: l.remove(x)` removes the first occurrence of `x` when present and
leaves `l` unchanged otherwise, which is exactly `List.erase`. -/

/-- `TaskAutoRunner._update_execution_state` acting on the current
`ExecutionState` (the method returns immediately when no current state
exists; persistence to disk is outside the embedded state transition).
`now` stands for `time.time()`. -/
def updateExecutionState (now : Int) (s : ExecutionState)
    (task_result : TaskResult) : ExecutionState :=
  let task_id := task_result.task_id
  let s := { s with
    completed_task_ids := s.completed_task_ids.erase task_id
    failed_task_ids := s.failed_task_ids.erase task_id
    skipped_task_ids := s.skipped_task_ids.erase task_id }
  let s :=
    if task_result.status = TaskStatus.success then
      { s with completed_task_ids := s.completed_task_ids ++ [task_id] }
    else if task_result.status = TaskStatus.failed then
      { s with failed_task_ids := s.failed_task_ids ++ [task_id] }
    else if task_result.status = TaskStatus.skipped then
      { s with skipped_task_ids := s.skipped_task_ids ++ [task_id] }
    else s
  { s with last_updated := now, current_task_id := none }

/-- Apply a sequence of execution-state updates; each step carries its
`time.time()` value and the task result recorded. -/
def applyExecutionUpdates (s : ExecutionState)
    (steps : List (Int × TaskResult)) : ExecutionState :=
  steps.foldl (fun s p => updateExecutionState p.1 s p.2) s

/-- The id-list invariant of an `ExecutionState`: the three persisted id
lists are duplicate-free and pairwise disjoint. -/
def ExecutionState.idListsOk (s : ExecutionState) : Prop :=
  s.completed_task_ids.Nodup ∧ s.failed_task_ids.Nodup ∧
  s.skipped_task_ids.Nodup ∧
  (∀ x ∈ s.completed_task_ids, x ∉ s.failed_task_ids) ∧
  (∀ x ∈ s.completed_task_ids, x ∉ s.skipped_task_ids) ∧
  (∀ x ∈ s.failed_task_ids, x ∉ s.skipped_task_ids)

instance (s : ExecutionState) : Decidable s.idListsOk := by
  unfold ExecutionState.idListsOk
  infer_instance

/-! ## Task selection (`auto_runner.py`)

`_filter_tasks`, `_parse_task_selection`, `_generate_task_range` and
`_sort_tasks_hierarchically`.  `ValueError` is modelled as `Except String`
carrying the exact message text the Python code builds; the `try/except`
re-raise chains are reflected in the message prefixes. -/

/-- `ParsedTask` (`task_generator.py`). -/
structure ParsedTask where
  id : String
  description : String
  leverage : Option String := none
  requirements : Option String := none
deriving DecidableEq, Repr

/-- Split a character list at a separator, Python `str.split(sep)` style:
`"".split(sep) == [""]` and separators at the edges produce empty pieces. -/
def splitOnChar (sep : Char) : List Char → List (List Char)
  | [] => [[]]
  | c :: rest =>
    if c = sep then [] :: splitOnChar sep rest
    else
      match splitOnChar sep rest with
      | [] => [[c]]
      | l :: ls => (c :: l) :: ls

/-- Python `\s` including the newline (used by `str.strip()`). -/
def pyWSFull (c : Char) : Bool :=
  c = ' ' || c = '\t' || c = '\n' || c = '\r' || c = '\x0b' || c = '\x0c'

/-- Python `str.strip()`: drop whitespace from both ends. -/
def pyStrip (s : String) : String :=
  String.mk (((s.data.dropWhile pyWSFull).reverse.dropWhile pyWSFull).reverse)

/-- Python `str.lower()` restricted to ASCII, which is all the selection
strings contain. -/
def pyLower (s : String) : String :=
  String.mk (s.data.map Char.toLower)

/-- Parse a non-empty all-digit character list as a decimal numeral; `none`
models the `ValueError` of `int()` / `float()` on other inputs.  (Python's
parsers also accept signs, surrounding whitespace and more exotic forms that
never occur in dot-separated task-id parts.) -/
def natParse (l : List Char) : Option Nat :=
  if l ≠ [] ∧ l.all Char.isDigit then
    some (l.foldl (fun n c => n * 10 + (c.toNat - 48)) 0)
  else none

/-- Insert `x` into the already-sorted `l`, after every element not strictly
greater than `x` — the insertion step of a stable sort. -/
def insertStable (le : α → α → Bool) (x : α) : List α → List α
  | [] => [x]
  | y :: ys =>
    if le x y && !(le y x) then x :: y :: ys else y :: insertStable le x ys

/-- Python's stable `sorted(l, key=...)` expressed as a comparator sort:
elements are processed left to right and each is inserted after all elements
it does not strictly precede, so ties keep their original order.  For a total
preorder comparator this is the unique stable sort, hence the permutation
`sorted` produces. -/
def pySorted (le : α → α → Bool) (l : List α) : List α :=
  l.foldl (fun acc x => insertStable le x acc) []

/-- Lexicographic code-point comparison of character lists — Python's string
`<=`. -/
def charListLe : List Char → List Char → Bool
  | [], _ => true
  | _ :: _, [] => false
  | a :: as, b :: bs =>
    if a.toNat < b.toNat then true
    else if b.toNat < a.toNat then false
    else charListLe as bs

/-- The sort key of `_sort_tasks_hierarchically.task_sort_key`: the dotted id
split into numeric parts padded with zeros to at least three components;
`none` models the `(float('inf'), 0, 0)` fallback used when some part fails
to parse.  Parser-produced task ids are dotted decimal numerals, on which
Python's `float` and `Nat` parsing agree (the embedded operations never see
signs, exponents or fractional parts inside a single dot-separated part). -/
def task_sort_key (id : String) : Option (List Nat) :=
  let parts := (splitOnChar '.' id.data).map natParse
  if parts.all Option.isSome then
    let ps := parts.reduceOption
    some (ps ++ List.replicate (3 - ps.length) 0)
  else none

/-- Lexicographic comparison of numeric key tuples (Python tuple `<=`:
a proper prefix compares as smaller). -/
def keyListLe : List Nat → List Nat → Bool
  | [], _ => true
  | _ :: _, [] => false
  | a :: as, b :: bs =>
    if a < b then true else if b < a then false else keyListLe as bs

/-- Comparison of sort keys; the `none` fallback `(inf, 0, 0)` compares as
strictly greater than every numeric key and equal to itself. -/
def keyLe : Option (List Nat) → Option (List Nat) → Bool
  | none, none => true
  | none, some _ => false
  | some _, none => true
  | some a, some b => keyListLe a b

/-- `_sort_tasks_hierarchically`: Python's stable `sorted` with
`task_sort_key`. -/
def sort_tasks_hierarchically (tasks : List ParsedTask) : List ParsedTask :=
  pySorted (fun a b => keyLe (task_sort_key a.id) (task_sort_key b.id)) tasks

/-- `_generate_task_range`.  The explicit `raise ValueError` statements inside
the method's `try` block are caught by its own `except` clause and re-raised
with the `"Invalid range: "` prefix; `int()` parse failures (whose message
contains `"invalid literal"`) are re-raised as the `"Non-numeric task IDs"`
message instead. -/
def generate_task_range (start stop : String) : Except String (List String) :=
  if ¬ start.data.contains '.' ∧ ¬ stop.data.contains '.' then
    -- simple numeric range, e.g. "1-3"
    match natParse start.data, natParse stop.data with
    | some s, some e =>
      if s > e then
        Except.error
          ("Invalid range: Start (" ++ start ++ ") is greater than end (" ++
           stop ++ ")")
      else Except.ok ((List.range' s (e - s + 1)).map toString)
    | _, _ =>
      Except.error
        ("Non-numeric task IDs in range: '" ++ start ++ "-" ++ stop ++ "'")
  else
    -- hierarchical range, e.g. "2.1-2.3"
    match ((splitOnChar '.' start.data).map natParse).allSome,
        ((splitOnChar '.' stop.data).map natParse).allSome with
    | some sp, some ep =>
      if sp.length ≠ ep.length then
        Except.error
          ("Invalid range: Hierarchy level mismatch between '" ++ start ++
           "' and '" ++ stop ++ "'")
      else if sp.length > 1 then
        if sp.dropLast ≠ ep.dropLast then
          Except.error
            ("Invalid range: Parent task mismatch between '" ++ start ++
             "' and '" ++ stop ++ "'")
        else if sp.getLastD 0 > ep.getLastD 0 then
          Except.error
            ("Invalid range: Start subtask (" ++ start ++
             ") is greater than end subtask (" ++ stop ++ ")")
        else
          let parentIds := ".".intercalate (sp.dropLast.map toString)
          Except.ok
            (((List.range' (sp.getLastD 0)
                (ep.getLastD 0 - sp.getLastD 0 + 1)).map toString).map
              (fun i => parentIds ++ "." ++ i))
      else
        Except.error
          ("Invalid range: Unsupported range format: '" ++ start ++ "-" ++
           stop ++ "'")
    | _, _ =>
      Except.error
        ("Non-numeric task IDs in range: '" ++ start ++ "-" ++ stop ++ "'")

/-- Helper for `dedupFirst`: drop elements already seen. -/
def dedupFirstAux (seen : List String) : List String → List String
  | [] => []
  | x :: xs =>
    if seen.contains x then dedupFirstAux seen xs
    else x :: dedupFirstAux (seen ++ [x]) xs

/-- `dict.fromkeys`-style deduplication: keep the first occurrence of each
element, preserving order. -/
def dedupFirst (l : List String) : List String :=
  dedupFirstAux [] l

/-- `_parse_task_selection`: split on commas, expand ranges, deduplicate while
preserving order. -/
def parse_task_selection (selection : String) : Except String (List String) :=
  if pyStrip selection = "" then Except.error "Selection cannot be empty"
  else
    let parts := ((splitOnChar ',' selection.data).map String.mk).map pyStrip
    let step : Except String (List String) → String →
        Except String (List String) := fun acc part => do
      let ids ← acc
      if part = "" then pure ids
      else if part.data.contains '-' then
        if (part.data.count '-') > 1 then
          Except.error ("Invalid range format: '" ++ part ++
            "' (too many dashes)")
        else
          -- `part.split("-", 1)`: exactly one dash here, so `splitOn`
          -- produces exactly the two pieces around it.
          let pieces := (splitOnChar '-' part.data).map String.mk
          let start := pyStrip (pieces.getD 0 "")
          let stop := pyStrip (pieces.getD 1 "")
          if start = "" ∨ stop = "" then
            Except.error ("Invalid range format: '" ++ part ++
              "' (missing start or end)")
          else
            match generate_task_range start stop with
            | Except.error e =>
              Except.error ("Invalid range '" ++ part ++ "': " ++ e)
            | Except.ok rangeIds => pure (ids ++ rangeIds)
      else
        -- single task id; `part` is non-empty here, so the
        -- "Empty task ID in selection" branch of the source is unreachable
        pure (ids ++ [part])
    (parts.foldl step (Except.ok [])).map dedupFirst

/-- `sorted(set)` over strings: order-insensitive deduplication followed by
the lexicographic (code-point) string order Python uses. -/
def sortedUnique (l : List String) : List String :=
  pySorted (fun a b => charListLe a.data b.data) (dedupFirst l)

/-- `_filter_tasks`. -/
def filter_tasks (tasks : List ParsedTask) (selection : Option String) :
    Except String (List ParsedTask) :=
  let isAll := match selection with
    | none => true
    | some s => s = "" || pyLower s = "all" || pyLower s = "*"
  if isAll then Except.ok (sort_tasks_hierarchically tasks)
  else
    let sel := selection.getD ""
    match parse_task_selection sel with
    | Except.error e =>
      Except.error ("Invalid task selection format: " ++ e)
    | Except.ok selected_task_ids =>
      let available_task_ids := tasks.map (·.id)
      let invalid_ids :=
        selected_task_ids.filter (fun i => !available_task_ids.contains i)
      if invalid_ids ≠ [] then
        Except.error ("Task IDs not found: " ++ ", ".intercalate invalid_ids ++
          ". Available task IDs: " ++
          ", ".intercalate (sortedUnique available_task_ids))
      else
        let filtered := tasks.filter (fun t => selected_task_ids.contains t.id)
        if filtered = [] then
          Except.error ("No tasks match selection criteria: " ++ sel)
        else Except.ok (sort_tasks_hierarchically filtered)

/-! ## `TaskAutoRunner._mark_task_complete` (`auto_runner.py`)

The substitution
`re.sub(r'^(-\s*)\[\s*\]\s*({id}\s*\.?.*?)$', r'\1[x] \2', content, flags=re.MULTILINE)`
with a dot-escaped `id` is embedded line by line: with `re.MULTILINE`, `^` and
`$` anchor each pattern match inside a single newline-free line, and `.` never
matches a newline, so the substitution rewrites exactly the lines matching the
pattern.  Inside a line, each `\s*` is followed by a character that is not
itself `\s` (`[`, `]`, or the leading digit of the id), so the greedy
whitespace runs are deterministic; after the id, `\s*\.?.*?$` matches any
remainder of the line, and group 2 of the replacement is the id together with
that entire remainder. -/

/-- Python `\s` within a single line (no `\n` can occur after splitting). -/
def pyWS (c : Char) : Bool :=
  c = ' ' || c = '\t' || c = '\r' || c = '\x0b' || c = '\x0c'

/-- Apply the checkbox substitution to one newline-free line.  `tid` is the
dot-escaped task id; it starts with a digit, hence not with `\s`. -/
def markLine (tid : List Char) (line : List Char) : List Char :=
  match line with
  | '-' :: r1 =>
    let ws1 := r1.takeWhile pyWS
    match r1.dropWhile pyWS with
    | '[' :: r3 =>
      match r3.dropWhile pyWS with
      | ']' :: r5 =>
        let r6 := r5.dropWhile pyWS
        if tid.isPrefixOf r6 then
          -- replacement `\1[x] \2` with group 1 = `-` + its whitespace and
          -- group 2 = the id followed by the rest of the line
          '-' :: (ws1 ++ ('[' :: 'x' :: ']' :: ' ' :: r6))
        else line
      | _ => line
    | _ => line
  | _ => line

/-- Split a character list at newlines (`str.splitlines` is not used by the
source; this is the line decomposition induced by `re.MULTILINE`). -/
def splitLines : List Char → List (List Char)
  | [] => [[]]
  | '\n' :: rest => [] :: splitLines rest
  | c :: rest =>
    match splitLines rest with
    | [] => [[c]]
    | l :: ls => (c :: l) :: ls

/-- `_mark_task_complete` acting on the tasks-document text. -/
def mark_task_complete (task_id content : String) : String :=
  String.mk (List.intercalate ['\n']
    ((splitLines content.data).map (markLine task_id.data)))

/-! ## `GitUtils._convert_to_github_url` (`git.py`)

The two `github.com` branches use `str.startswith` and
`str.replace('.git', '')`, which removes **every** occurrence of `.git`.
The other hosts are handled through a list of compiled patterns of the shape
`{head}(.+)\.git` used with `pattern.match` (anchored at the start) and
`pattern.sub(replacement, url)`; `(.+)` is greedy, matches no newline, and
backtracks to the last `.git` in the newline-free run, and `sub` rewrites
every non-overlapping match, continuing after each replaced span. -/

/-- The characters of `".git"`. -/
def dotGit : List Char := ['.', 'g', 'i', 't']

/-- Python `str.replace('.git', '')`: remove every non-overlapping occurrence
of `.git`, scanning left to right.  The fuel argument (instantiated with the
string length by `stripDotGit`) only makes the recursion structural; every
step consumes at least one character, so it never runs out. -/
def stripDotGitAux : Nat → List Char → List Char
  | 0, s => s
  | _ + 1, [] => []
  | fuel + 1, c :: cs =>
    if dotGit.isPrefixOf (c :: cs) then stripDotGitAux fuel (cs.drop 3)
    else c :: stripDotGitAux fuel cs

/-- Python `str.replace('.git', '')`. -/
def stripDotGit (s : List Char) : List Char :=
  stripDotGitAux s.length s

/-- Greedy backtracking for `(.+)\.git` against `rest`: try the group length
`j`, counting down.  A candidate needs `j ≥ 1`, no newline inside the group
(`.` does not match `\n`), and the literal `.git` right after it. -/
def backtrackGit (rest : List Char) : Nat → Option (List Char × List Char)
  | 0 => none
  | j + 1 =>
    if dotGit.isPrefixOf (rest.drop (j + 1)) &&
        !((rest.take (j + 1)).contains '\n') then
      some (rest.take (j + 1), rest.drop (j + 1 + 4))
    else backtrackGit rest j

/-- Match `(.+)\.git` greedily against `rest`, returning the group and what
follows the match. -/
def greedyGitSplit (rest : List Char) : Option (List Char × List Char) :=
  backtrackGit rest rest.length

/-- Does `{head}(.+)\.git` match at the start of `s` (Python
`pattern.match`)? -/
def matchesHostPattern (head s : List Char) : Bool :=
  head.isPrefixOf s && (greedyGitSplit (s.drop head.length)).isSome

/-- `pattern.sub(r'{repl}\1', s)` for the pattern `{head}(.+)\.git`: scan the
string; at each position where the pattern matches, emit the replacement head
followed by the group and continue after the matched span.  The fuel argument
(instantiated with the string length by `reSubGit`) only makes the recursion
structural; every step consumes at least one character, so it never runs
out. -/
def reSubGitAux (head repl : List Char) : Nat → List Char → List Char
  | 0, s => s
  | _ + 1, [] => []
  | fuel + 1, c :: cs =>
    if head.isPrefixOf (c :: cs) then
      match greedyGitSplit ((c :: cs).drop head.length) with
      | some (x, t) => repl ++ x ++ reSubGitAux head repl fuel t
      | none => c :: reSubGitAux head repl fuel cs
    else c :: reSubGitAux head repl fuel cs

/-- `pattern.sub` for a host pattern (see `reSubGitAux`). -/
def reSubGit (head repl s : List Char) : List Char :=
  reSubGitAux head repl s.length s

/-- The `git_host_patterns` list: pattern head and replacement head, in
source order (GitLab, Bitbucket, then the unreachable GitHub entries). -/
def hostPatterns : List (List Char × List Char) :=
  [("git@gitlab.com:".data, "https://gitlab.com/".data),
   ("https://gitlab.com/".data, "https://gitlab.com/".data),
   ("git@bitbucket.org:".data, "https://bitbucket.org/".data),
   ("https://bitbucket.org/".data, "https://bitbucket.org/".data),
   ("git@github.com:".data, "https://github.com/".data),
   ("https://github.com/".data, "https://github.com/".data)]

/-- The `for pattern, replacement in git_host_patterns` loop: the first
pattern that matches at the start of `s` is substituted. -/
def applyHostPatterns : List (List Char × List Char) → List Char →
    Option (List Char)
  | [], _ => none
  | (head, repl) :: ps, s =>
    if matchesHostPattern head s then some (reSubGit head repl s)
    else applyHostPatterns ps s

/-- `GitUtils._convert_to_github_url`. -/
def convert_to_github_url (remote_url : String) : Option String :=
  let s := remote_url.data
  if s = [] then none
  else if "git@github.com:".data.isPrefixOf s then
    some (String.mk
      ("https://github.com/".data ++
        stripDotGit (s.drop "git@github.com:".data.length)))
  else if "https://github.com/".data.isPrefixOf s then
    some (String.mk (stripDotGit s))
  else (applyHostPatterns hostPatterns s).map String.mk

/-! ## `MigrationManager.detect_typescript_installation` (`migration.py`) -/

/-- The dependency keys of a parsed `package.json` (`dependencies` and
`devDependencies` are name-to-version dictionaries; only key membership in
their `{**d1, **d2}` merge is consulted). -/
structure PackageJson where
  dependencies : List String
  devDependencies : List String
deriving DecidableEq, Repr

/-- The project-root facts `detect_typescript_installation` probes:
whether `package.json` exists, its parse result when it does (`none` models
`json.JSONDecodeError`/`OSError`), and whether `node_modules` exists. -/
structure ProjectDir where
  package_json_exists : Bool
  package_json : Option PackageJson
  node_modules_exists : Bool
deriving DecidableEq, Repr

/-- `detect_typescript_installation`: the loop over
`ts_indicators = ["package.json", "node_modules"]` can only return `True`
from the `indicator == "package.json"` arm (an existing, parseable manifest
whose merged `dependencies`/`devDependencies` name
`claude-code-spec-workflow`); the `node_modules` iteration has no effect
because the loop body only acts when `indicator == "package.json"`, so the
function falls through to `return False`. -/
def detect_typescript_installation (p : ProjectDir) : Bool :=
  let fromPackageJson :=
    p.package_json_exists &&
      (match p.package_json with
       | some pkg =>
         (pkg.dependencies ++ pkg.devDependencies).contains
           "claude-code-spec-workflow"
       | none => false)
  fromPackageJson

/-! ## `SpecParser.get_spec` status computation (`dashboard/parser.py`)

The dashboard status is a pure function of the three document contents
(`requirements.md`, `design.md`, `tasks.md`, each `none` when the file does
not exist).  Display-name extraction, user-story counting and the structured
sub-records do not influence the `status` field and are not embedded.

`_parse_tasks` matches each line against
`^(\s*)- \[([ x])\] (?:\*\*)?(\d+(?:\.\d+)*)\. (.+?)(?:\*\*)?$` and arranges
the matched tasks into a tree via the parent stack.  The tree re-parents
tasks but neither drops nor duplicates a matched line, and
`_count_completed_tasks` / `_count_total_tasks` visit every node exactly
once, so the completed/total counts the status computation consumes equal the
counts over the flat list of matching lines; the embedding therefore models
the parse as the flat list of checkbox flags, one per matching line. -/

/-- Python `x in s` substring test. -/
def containsSub (pat : List Char) : List Char → Bool
  | [] => pat.isEmpty
  | c :: cs => pat.isPrefixOf (c :: cs) || containsSub pat cs

/-- The literal `✅ APPROVED`. -/
def approvedMark : List Char := "✅ APPROVED".data

/-- The literal `**Approved:** ✓` (accepted for requirements only). -/
def reqApprovedMark : List Char := "**Approved:** ✓".data

/-- After the leading digit of a task id, decide whether the regex tail
`\d*(?:\.\d+)*\. (.+?)(?:\*\*)?$` accepts the rest of the line: keep
consuming digits; at a dot, a following digit forcibly continues the id
(`\. ` cannot match there), a following space ends the id and requires a
non-empty description; anything else fails. -/
def scanAfterDigit : List Char → Bool
  | [] => false
  | c :: rest =>
    if c.isDigit then scanAfterDigit rest
    else if c = '.' then
      match rest with
      | [] => false
      | d :: rest2 =>
        if d.isDigit then scanAfterDigit rest2
        else d = ' ' && rest2 ≠ []
    else false

/-- Match one line against the task regex; `some b` means the line is a task
line with checkbox state `b` (`true` for `x`). -/
def matchTaskLine (line : List Char) : Option Bool :=
  match line.dropWhile pyWS with
  | '-' :: ' ' :: '[' :: st :: ']' :: ' ' :: rest =>
    if st = ' ' || st = 'x' then
      let rest2 := match rest with
        | '*' :: '*' :: r => r
        | _ => rest
      match rest2 with
      | c :: r3 =>
        if c.isDigit then
          if scanAfterDigit r3 then some (st = 'x') else none
        else none
      | [] => none
    else none
  | _ => none

/-- The checkbox flags of the task lines of a tasks document, in order. -/
def parseTaskChecks (content : List Char) : List Bool :=
  ((splitLines content).map matchTaskLine).reduceOption

/-- The status after the requirements block of `get_spec`: the initial
`not-started`, overwritten to `requirements` when `requirements.md` exists
and further to `design` when it carries an approval marker. -/
def status_after_requirements (req : Option String) : String :=
  match req with
  | none => "not-started"
  | some content =>
    if containsSub approvedMark content.data ||
        containsSub reqApprovedMark content.data then "design"
    else "requirements"

/-- The status after the design block: overwritten to `tasks` only when
`design.md` exists and contains `✅ APPROVED`. -/
def status_after_design (req des : Option String) : String :=
  match des with
  | none => status_after_requirements req
  | some content =>
    if containsSub approvedMark content.data then "tasks"
    else status_after_requirements req

/-- The `status` field computed by `SpecParser.get_spec` from the three
document contents: the design-block status, overwritten by the tasks block
when `tasks.md` exists and contains `✅ APPROVED`. -/
def spec_status (req des tsk : Option String) : String :=
  match tsk with
  | none => status_after_design req des
  | some content =>
    if containsSub approvedMark content.data then
      let checks := parseTaskChecks content.data
      let completed := checks.count true
      if completed = 0 then "tasks"
      else if completed < checks.length then "in-progress"
      else "completed"
    else status_after_design req des

/-! ## Fixtures shared by concrete instances -/

deriving instance DecidableEq for Except

/-- A `ParsedTask` with the given id (description and metadata immaterial to
selection). -/
def mkTask (i : String) : ParsedTask :=
  { id := i, description := "task" }

/-- An `AutoRunOptions` value with non-default fields. -/
def optionsFixture : AutoRunOptions :=
  { execution_mode := ExecutionMode.interactive
    task_selection := some "1-3"
    continue_on_error := true
    show_detailed_progress := false
    resume_from_task := some "2" }

/-- An `ExecutionState` with non-trivial options and non-empty id lists. -/
def stateFixture : ExecutionState :=
  { spec_name := "demo"
    start_time := 100
    last_updated := 200
    options := optionsFixture
    completed_task_ids := ["1", "2", "3"]
    failed_task_ids := ["4"]
    skipped_task_ids := ["5"]
    current_task_id := some "6"
    total_tasks := 5
    interruption_reason := some "keyboard" }

/-- The fixture state with as many completed ids as `total_tasks`. -/
def stateFixtureDone : ExecutionState :=
  { stateFixture with completed_task_ids := ["1", "2", "3", "4", "5"] }

/-- The fixture state with `total_tasks = 0`. -/
def stateFixtureEmpty : ExecutionState :=
  { stateFixture with
      completed_task_ids := []
      total_tasks := 0
      current_task_id := some "1" }

/-! ## Claims -/

/-- **C1** (code bug): evaluating `_mark_task_complete` at the failing input
shows the claim violated by the code.  Marking task `2.3` rewrites not only
the `- [ ] 2.3` line but also the `- [ ] 2.30` and `- [ ] 2.3.1` lines,
because the pattern `^(-\s*)\[\s*\]\s*(2\.3\s*\.?.*?)$` puts no boundary
after the id (`\s*\.?.*?` accepts `0 …` and `.1 …` alike) and `re.sub` is
called without `count=1`, rewriting every matching line; the unrelated line
for task `4` stays unchanged. -/
theorem c1_mark_task_complete_failing_input :
    mark_task_complete "2.3"
      "- [ ] 2.3 Alpha\n- [ ] 2.30 Beta\n- [ ] 2.3.1 Gamma\n- [ ] 4 Delta" =
    "- [x] 2.3 Alpha\n- [x] 2.30 Beta\n- [x] 2.3.1 Gamma\n- [ ] 4 Delta" := by
  decide

/-- **C9** (code bug): `detect_typescript_installation` returns `False` for a
project whose root contains `node_modules` but no `package.json`, and also
when an existing `package.json` does not name the package even though
`node_modules` is present — the `node_modules` indicator can never produce
`True` because the loop body only acts on the `package.json` indicator. -/
theorem c9_detect_typescript_failing_input :
    detect_typescript_installation
      { package_json_exists := false, package_json := none
        node_modules_exists := true } = false ∧
    detect_typescript_installation
      { package_json_exists := true
        package_json := some { dependencies := ["left-pad"],
                               devDependencies := [] }
        node_modules_exists := true } = false := by
  decide

/-- **C6** (confirmed): `is_resumable` holds exactly when fewer task ids are
completed than `total_tasks`, `total_tasks` is positive, and either a current
task id is set or at least one task id is completed; in particular the state
with `total_tasks = 5`, three completed ids and a set current task is
resumable, the state whose completed count equals `total_tasks` is not, and
the state with `total_tasks = 0` is not. -/
theorem c6_is_resumable_characterization :
    (∀ s : ExecutionState,
      s.is_resumable = true ↔
        ((s.completed_task_ids.length : Int) < s.total_tasks ∧
         (0 : Int) < s.total_tasks ∧
         (s.current_task_id ≠ none ∨ 0 < s.completed_task_ids.length))) ∧
    stateFixture.is_resumable = true ∧
    stateFixtureDone.is_resumable = false ∧
    stateFixtureEmpty.is_resumable = false := by
  refine ⟨fun s => ?_, by decide, by decide, by decide⟩
  simp [ExecutionState.is_resumable, Option.isNone_iff_eq_none, and_assoc,
    Option.isSome_iff_ne_none]

/-- **C5** (confirmed): deserializing the serialized form of an
`ExecutionState` reproduces every field, including the nested options record.
The two hypotheses say the state is one the `ExecutionState` /
`AutoRunOptions` constructors can produce: `__post_init__` forces
`task_selection` away from `None` and `last_updated` away from `0` (the
latter provided `time.time()` is non-zero, which is always the case). -/
theorem c5_execution_state_round_trip (now : Int) (s : ExecutionState)
    (hl : s.last_updated ≠ 0) (ht : s.options.task_selection ≠ none) :
    ExecutionState.from_dict now s.to_dict = some s := by
  obtain ⟨sn, st, lu, opts, c, f, k, cur, tot, ir⟩ := s
  obtain ⟨mode, sel, coe, sdp, rft⟩ := opts
  simp only [ExecutionState.to_dict, ExecutionState.from_dict,
    AutoRunOptions.make, AutoRunOptions.postInit, ExecutionState.make,
    ExecutionState.postInit] at *
  cases mode <;>
    simp_all [ExecutionMode.ofValue, ExecutionMode.value, Option.bind]

/-- Witness for `c5_execution_state_round_trip` at the fixture state. -/
theorem c5_round_trip_witness :
    ExecutionState.from_dict 777 stateFixture.to_dict = some stateFixture :=
  c5_execution_state_round_trip 777 stateFixture (by decide) (by decide)

/-- **C2** (confirmed): selecting `"2.1-2.3"` against tasks `2.1, 2.2, 2.3,
2.4` yields exactly `[2.1, 2.2, 2.3]` in that order; selecting `"1-3"`
against `1, 2, 2.1, 3` yields `[1, 2, 3]` with `2.1` excluded; and every
successful selection result is some sub-selection of the input re-ordered by
the hierarchical sort (dotted ids as numeric tuples zero-padded to three
components). -/
theorem c2_filter_tasks_ranges :
    filter_tasks [mkTask "2.1", mkTask "2.2", mkTask "2.3", mkTask "2.4"]
        (some "2.1-2.3") =
      Except.ok [mkTask "2.1", mkTask "2.2", mkTask "2.3"] ∧
    filter_tasks [mkTask "1", mkTask "2", mkTask "2.1", mkTask "3"]
        (some "1-3") =
      Except.ok [mkTask "1", mkTask "2", mkTask "3"] ∧
    (∀ (tasks : List ParsedTask) (selection : Option String)
        (out : List ParsedTask),
      filter_tasks tasks selection = Except.ok out →
      ∃ sub : List ParsedTask, List.Sublist sub tasks ∧
        out = sort_tasks_hierarchically sub) := by
  refine ⟨by decide, by decide, fun tasks selection out h => ?_⟩
  simp only [filter_tasks] at h
  split at h
  · exact ⟨tasks, List.Sublist.refl tasks, (Except.ok.injEq _ _).mp h.symm⟩
  · split at h
    · exact absurd h (by simp)
    · split at h
      · exact absurd h (by simp)
      · split at h
        · exact absurd h (by simp)
        · exact ⟨_, List.filter_sublist _, (Except.ok.injEq _ _).mp h.symm⟩

/-- Witness for `c2_filter_tasks_ranges`: the universally quantified part
applied at a concrete successful selection. -/
theorem c2_filter_tasks_witness :
    ∃ sub : List ParsedTask, List.Sublist sub [mkTask "1", mkTask "2"] ∧
      [mkTask "2"] = sort_tasks_hierarchically sub :=
  c2_filter_tasks_ranges.2.2 [mkTask "1", mkTask "2"] (some "2") [mkTask "2"]
    (by decide)

/-- **C3** (counterexample): the claim's final clause — "for every selection
whose expanded ids all exist among the parsed tasks, no error is raised" —
fails for the selection `","`: its expansion is the empty id list (so all of
its ids vacuously exist among tasks `1, 2, 3`), yet `_filter_tasks` raises
`No tasks match selection criteria`. -/
theorem c3_counterexample_empty_expansion :
    parse_task_selection "," = Except.ok [] ∧
    (∀ i ∈ ([] : List String),
      i ∈ ([mkTask "1", mkTask "2", mkTask "3"].map ParsedTask.id)) ∧
    filter_tasks [mkTask "1", mkTask "2", mkTask "3"] (some ",") =
      Except.error "No tasks match selection criteria: ," := by
  exact ⟨by decide, by simp, by decide⟩

/-- **C3** (corrected): selection raises descriptive errors exactly as
claimed in the invalid cases — `"5"` against ids `{1,2,3}` names `5` and
lists `1, 2, 3`; `"3-1"` fails as a reversed range; `"2.1-3.1"` fails as a
parent mismatch — and for every selection whose expansion succeeds with a
**non-empty** id list all of whose ids exist among the parsed tasks, no
error is raised (the non-emptiness proviso is what
`c3_counterexample_empty_expansion` forces). -/
theorem c3_selection_validation :
    filter_tasks [mkTask "1", mkTask "2", mkTask "3"] (some "5") =
      Except.error "Task IDs not found: 5. Available task IDs: 1, 2, 3" ∧
    filter_tasks [mkTask "1", mkTask "2", mkTask "3"] (some "3-1") =
      Except.error
        "Invalid task selection format: Invalid range '3-1': Invalid range: Start (3) is greater than end (1)" ∧
    filter_tasks [mkTask "1", mkTask "2", mkTask "3"] (some "2.1-3.1") =
      Except.error
        "Invalid task selection format: Invalid range '2.1-3.1': Invalid range: Parent task mismatch between '2.1' and '3.1'" ∧
    (∀ (tasks : List ParsedTask) (sel : String) (ids : List String),
      parse_task_selection sel = Except.ok ids → ids ≠ [] →
      (∀ i ∈ ids, i ∈ tasks.map ParsedTask.id) →
      ∃ out, filter_tasks tasks (some sel) = Except.ok out) := by
  refine ⟨by decide, by decide, by decide,
    fun tasks sel ids hparse hne hmem => ?_⟩
  simp only [filter_tasks]
  split
  · exact ⟨_, rfl⟩
  · rw [show (some sel).getD "" = sel from rfl]
    simp only [hparse]
    have hinv : ids.filter (fun i => !(tasks.map (fun t => t.id)).contains i)
        = [] := by
      refine List.filter_eq_nil_iff.mpr fun i hi => ?_
      have h2 := hmem i hi
      simp only [List.mem_map] at h2
      simp only [Bool.not_eq_true', Bool.not_eq_false]
      simpa using h2
    rw [hinv]
    simp only [ne_eq, not_true_eq_false, if_false, reduceIte]
    have hfil : tasks.filter (fun t => ids.contains t.id) ≠ [] := by
      obtain ⟨i, hi⟩ := List.exists_mem_of_ne_nil ids hne
      have hmi := hmem i hi
      simp only [List.mem_map] at hmi
      obtain ⟨t, ht, hid⟩ := hmi
      intro hcon
      have hmemf : t ∈ tasks.filter (fun t => ids.contains t.id) := by
        refine List.mem_filter.mpr ⟨ht, ?_⟩
        rw [hid]
        simpa using hi
      rw [hcon] at hmemf
      simp at hmemf
    split
    · exact absurd (by assumption) hfil
    · exact ⟨_, rfl⟩

/-- Witness for `c3_selection_validation`: the universally quantified part
applied at a concrete valid selection. -/
theorem c3_selection_witness :
    ∃ out, filter_tasks [mkTask "7"] (some "7") = Except.ok out :=
  c3_selection_validation.2.2.2 [mkTask "7"] "7" ["7"] (by decide)
    (by decide) (by simp [mkTask])

/-! ### C4 auxiliary lemmas -/

/-- Number of task results with a given status. -/
def countStatus (st : TaskStatus) (l : List TaskResult) : Nat :=
  l.countP (fun t => t.status == st)

/-- The bookkeeping invariant tying the `AutoRunResult` counters to the
stored result list. -/
def countersMatch (r : AutoRunResult) : Prop :=
  r.executed_tasks = (r.task_results.length : Int) ∧
  r.successful_tasks = (countStatus TaskStatus.success r.task_results : Int) ∧
  r.failed_tasks = (countStatus TaskStatus.failed r.task_results : Int) ∧
  r.skipped_tasks = (countStatus TaskStatus.skipped r.task_results : Int)

theorem countStatus_append (st : TaskStatus) (l : List TaskResult)
    (tr : TaskResult) :
    countStatus st (l ++ [tr]) =
      countStatus st l + (if tr.status = st then 1 else 0) := by
  simp [countStatus, List.countP_append, List.countP_cons]

theorem subStatus_executed (r : AutoRunResult) (st : TaskStatus) :
    (r.subStatus st).executed_tasks = r.executed_tasks := by
  cases st <;> simp [AutoRunResult.subStatus]

theorem subStatus_results (r : AutoRunResult) (st : TaskStatus) :
    (r.subStatus st).task_results = r.task_results := by
  cases st <;> simp [AutoRunResult.subStatus]

theorem subStatus_successful (r : AutoRunResult) (st : TaskStatus) :
    (r.subStatus st).successful_tasks =
      r.successful_tasks - (if st = TaskStatus.success then 1 else 0) := by
  cases st <;> simp [AutoRunResult.subStatus]

theorem subStatus_failed (r : AutoRunResult) (st : TaskStatus) :
    (r.subStatus st).failed_tasks =
      r.failed_tasks - (if st = TaskStatus.failed then 1 else 0) := by
  cases st <;> simp [AutoRunResult.subStatus]

theorem subStatus_skipped (r : AutoRunResult) (st : TaskStatus) :
    (r.subStatus st).skipped_tasks =
      r.skipped_tasks - (if st = TaskStatus.skipped then 1 else 0) := by
  cases st <;> simp [AutoRunResult.subStatus]

theorem bumpStatus_executed (r : AutoRunResult) (st : TaskStatus) :
    (r.bumpStatus st).executed_tasks = r.executed_tasks := by
  cases st <;> simp [AutoRunResult.bumpStatus]

theorem bumpStatus_results (r : AutoRunResult) (st : TaskStatus) :
    (r.bumpStatus st).task_results = r.task_results := by
  cases st <;> simp [AutoRunResult.bumpStatus]

theorem bumpStatus_successful (r : AutoRunResult) (st : TaskStatus) :
    (r.bumpStatus st).successful_tasks =
      r.successful_tasks + (if st = TaskStatus.success then 1 else 0) := by
  cases st <;> simp [AutoRunResult.bumpStatus]

theorem bumpStatus_failed (r : AutoRunResult) (st : TaskStatus) :
    (r.bumpStatus st).failed_tasks =
      r.failed_tasks + (if st = TaskStatus.failed then 1 else 0) := by
  cases st <;> simp [AutoRunResult.bumpStatus]

theorem bumpStatus_skipped (r : AutoRunResult) (st : TaskStatus) :
    (r.bumpStatus st).skipped_tasks =
      r.skipped_tasks + (if st = TaskStatus.skipped then 1 else 0) := by
  cases st <;> simp [AutoRunResult.bumpStatus]

theorem add_task_result_executed (r : AutoRunResult) (tr : TaskResult) :
    (r.add_task_result tr).executed_tasks = r.executed_tasks + 1 := by
  cases h : tr.status <;> simp [AutoRunResult.add_task_result, h]

theorem add_task_result_results (r : AutoRunResult) (tr : TaskResult) :
    (r.add_task_result tr).task_results = r.task_results ++ [tr] := by
  cases h : tr.status <;> simp [AutoRunResult.add_task_result, h]

theorem add_task_result_successful (r : AutoRunResult) (tr : TaskResult) :
    (r.add_task_result tr).successful_tasks =
      r.successful_tasks +
        (if tr.status = TaskStatus.success then 1 else 0) := by
  cases h : tr.status <;> simp [AutoRunResult.add_task_result, h]

theorem add_task_result_failed (r : AutoRunResult) (tr : TaskResult) :
    (r.add_task_result tr).failed_tasks =
      r.failed_tasks + (if tr.status = TaskStatus.failed then 1 else 0) := by
  cases h : tr.status <;> simp [AutoRunResult.add_task_result, h]

theorem add_task_result_skipped (r : AutoRunResult) (tr : TaskResult) :
    (r.add_task_result tr).skipped_tasks =
      r.skipped_tasks + (if tr.status = TaskStatus.skipped then 1 else 0) := by
  cases h : tr.status <;> simp [AutoRunResult.add_task_result, h]

theorem countStatus_append_int (st : TaskStatus) (l : List TaskResult)
    (tr : TaskResult) :
    ((countStatus st (l ++ [tr]) : Nat) : Int) =
      (countStatus st l : Int) + (if tr.status = st then 1 else 0) := by
  rw [countStatus_append]
  split <;> simp

theorem countersMatch_add (r : AutoRunResult) (tr : TaskResult)
    (h : countersMatch r) : countersMatch (r.add_task_result tr) := by
  obtain ⟨h1, h2, h3, h4⟩ := h
  refine ⟨?_, ?_, ?_, ?_⟩
  · simp only [add_task_result_executed, add_task_result_results,
      List.length_append, List.length_cons, List.length_nil]
    push_cast
    omega
  · simp only [add_task_result_successful, add_task_result_results,
      countStatus_append_int, h2]
  · simp only [add_task_result_failed, add_task_result_results,
      countStatus_append_int, h3]
  · simp only [add_task_result_skipped, add_task_result_results,
      countStatus_append_int, h4]

theorem countersMatch_update (r : AutoRunResult) (tr : TaskResult)
    (h : countersMatch r) : countersMatch (r.update_last_task_result tr) := by
  obtain ⟨h1, h2, h3, h4⟩ := h
  unfold AutoRunResult.update_last_task_result
  cases hl : r.task_results.getLast? with
  | none => exact countersMatch_add r tr ⟨h1, h2, h3, h4⟩
  | some old =>
    have hne : r.task_results ≠ [] := by
      intro he; rw [he] at hl; simp at hl
    have hold : r.task_results.getLast hne = old := by
      rw [List.getLast?_eq_getLast _ hne] at hl
      exact Option.some_inj.mp hl
    have hsplit : r.task_results.dropLast ++ [old] = r.task_results := by
      rw [← hold]; exact List.dropLast_append_getLast hne
    have hlen : r.task_results.length = r.task_results.dropLast.length + 1 := by
      conv_lhs => rw [← hsplit]
      simp
    have hcast : ∀ st : TaskStatus,
        ((countStatus st r.task_results : Nat) : Int) =
          (countStatus st r.task_results.dropLast : Int) +
          (if old.status = st then 1 else 0) := by
      intro st
      conv_lhs => rw [← hsplit]
      exact countStatus_append_int st _ old
    refine ⟨?_, ?_, ?_, ?_⟩
    · simp only [bumpStatus_executed, subStatus_executed,
        bumpStatus_results, subStatus_results, List.length_append,
        List.length_cons, List.length_nil]
      push_cast
      omega
    · simp only [bumpStatus_successful, subStatus_successful,
        bumpStatus_results, subStatus_results, countStatus_append_int]
      rw [h2, hcast TaskStatus.success]
      ring
    · simp only [bumpStatus_failed, subStatus_failed, bumpStatus_results,
        subStatus_results, countStatus_append_int]
      rw [h3, hcast TaskStatus.failed]
      ring
    · simp only [bumpStatus_skipped, subStatus_skipped, bumpStatus_results,
        subStatus_results, countStatus_append_int]
      rw [h4, hcast TaskStatus.skipped]
      ring

/-- A status drawn from `{SUCCESS, FAILED, SKIPPED}`. -/
def stSFK (st : TaskStatus) : Prop :=
  st = TaskStatus.success ∨ st = TaskStatus.failed ∨ st = TaskStatus.skipped

instance (st : TaskStatus) : Decidable (stSFK st) := by
  unfold stSFK
  infer_instance

/-- All stored task results have statuses in `{SUCCESS, FAILED, SKIPPED}`. -/
def allSFK (r : AutoRunResult) : Prop :=
  ∀ tr ∈ r.task_results, stSFK tr.status

theorem length_eq_counts (l : List TaskResult)
    (h : ∀ tr ∈ l, stSFK tr.status) :
    l.length = countStatus TaskStatus.success l +
      countStatus TaskStatus.failed l + countStatus TaskStatus.skipped l := by
  induction l with
  | nil => simp [countStatus]
  | cons a l ih =>
    have ha := h a (by simp)
    have hl := ih fun tr htr => h tr (by simp [htr])
    rcases ha with h1 | h1 | h1 <;>
      simp [countStatus, List.countP_cons, h1] at hl ⊢ <;>
      omega

theorem allSFK_add (r : AutoRunResult) (tr : TaskResult) (h : allSFK r)
    (htr : stSFK tr.status) : allSFK (r.add_task_result tr) := by
  intro x hx
  rw [add_task_result_results] at hx
  rcases List.mem_append.mp hx with hx | hx
  · exact h x hx
  · simp at hx; subst hx; exact htr

theorem allSFK_update (r : AutoRunResult) (tr : TaskResult) (h : allSFK r)
    (htr : stSFK tr.status) : allSFK (r.update_last_task_result tr) := by
  unfold AutoRunResult.update_last_task_result
  cases hl : r.task_results.getLast? with
  | none => exact allSFK_add r tr h htr
  | some old =>
    intro x hx
    simp only [bumpStatus_results] at hx
    rcases List.mem_append.mp hx with hx | hx
    · rw [subStatus_results] at hx
      exact h x ((List.dropLast_sublist _).subset hx)
    · simp at hx; subst hx; exact htr

theorem applyCalls_inv (calls : List AutoRunCall) :
    ∀ r : AutoRunResult, countersMatch r → allSFK r →
    (∀ c ∈ calls, stSFK (AutoRunCall.result c).status) →
    countersMatch (r.applyCalls calls) ∧ allSFK (r.applyCalls calls) := by
  induction calls with
  | nil => exact fun r hc ha _ => ⟨hc, ha⟩
  | cons c cs ih =>
    intro r hc ha h
    have hcall := h c (by simp)
    have hrest : ∀ c' ∈ cs, stSFK (AutoRunCall.result c').status :=
      fun c' hc' => h c' (List.mem_cons_of_mem _ hc')
    have hstep : countersMatch (r.applyCall c) ∧ allSFK (r.applyCall c) := by
      cases c with
      | add result =>
        exact ⟨countersMatch_add r result hc, allSFK_add r result ha hcall⟩
      | updateLast result =>
        exact ⟨countersMatch_update r result hc,
          allSFK_update r result ha hcall⟩
    exact ih (r.applyCall c) hstep.1 hstep.2 hrest

/-- **C4** (confirmed): starting from a freshly constructed `AutoRunResult`,
after any sequence of `add_task_result` / `update_last_task_result` calls
whose task results carry statuses in `{SUCCESS, FAILED, SKIPPED}`,
`executed_tasks = successful_tasks + failed_tasks + skipped_tasks`,
`success_rate = successful/executed` (`0` when `executed_tasks = 0`), and
`is_successful` holds iff `failed_tasks = 0` and `executed_tasks > 0`.
Because the hypothesis holds for every prefix of such a call sequence, the
equations hold after each call. -/
theorem c4_auto_run_result_invariant (name : String) (total : Int)
    (calls : List AutoRunCall)
    (h : ∀ c ∈ calls, stSFK (AutoRunCall.result c).status) :
    ((AutoRunResult.mk0 name total).applyCalls calls).executed_tasks =
      ((AutoRunResult.mk0 name total).applyCalls calls).successful_tasks +
      ((AutoRunResult.mk0 name total).applyCalls calls).failed_tasks +
      ((AutoRunResult.mk0 name total).applyCalls calls).skipped_tasks ∧
    ((AutoRunResult.mk0 name total).applyCalls calls).success_rate =
      (if ((AutoRunResult.mk0 name total).applyCalls calls).executed_tasks = 0
       then 0
       else
        (((AutoRunResult.mk0 name total).applyCalls calls).successful_tasks : ℚ) /
        (((AutoRunResult.mk0 name total).applyCalls calls).executed_tasks : ℚ)) ∧
    (((AutoRunResult.mk0 name total).applyCalls calls).is_successful = true ↔
      (((AutoRunResult.mk0 name total).applyCalls calls).failed_tasks = 0 ∧
       0 < ((AutoRunResult.mk0 name total).applyCalls calls).executed_tasks)) := by
  have hinit : countersMatch (AutoRunResult.mk0 name total) := by
    refine ⟨by simp [AutoRunResult.mk0], by simp [AutoRunResult.mk0, countStatus],
      by simp [AutoRunResult.mk0, countStatus],
      by simp [AutoRunResult.mk0, countStatus]⟩
  have hinit2 : allSFK (AutoRunResult.mk0 name total) := by
    intro tr htr; simp [AutoRunResult.mk0] at htr
  obtain ⟨⟨hc1, hc2, hc3, hc4⟩, ha⟩ :=
    applyCalls_inv calls (AutoRunResult.mk0 name total) hinit hinit2 h
  refine ⟨?_, rfl, ?_⟩
  · have := length_eq_counts _ ha
    omega
  · simp [AutoRunResult.is_successful]

/-- A call sequence with statuses in `{SUCCESS, FAILED, SKIPPED}`, including
a retry that rewrites the last result. -/
def callsFixture : List AutoRunCall :=
  [AutoRunCall.add { task_id := "1", task_description := "a",
                     status := TaskStatus.success },
   AutoRunCall.add { task_id := "2", task_description := "b",
                     status := TaskStatus.failed },
   AutoRunCall.updateLast { task_id := "2", task_description := "b",
                            status := TaskStatus.skipped }]

/-- Witness for `c4_auto_run_result_invariant` at a concrete call
sequence. -/
theorem c4_invariant_witness :
    ((AutoRunResult.mk0 "demo" 3).applyCalls callsFixture).executed_tasks =
      ((AutoRunResult.mk0 "demo" 3).applyCalls callsFixture).successful_tasks +
      ((AutoRunResult.mk0 "demo" 3).applyCalls callsFixture).failed_tasks +
      ((AutoRunResult.mk0 "demo" 3).applyCalls callsFixture).skipped_tasks ∧
    ((AutoRunResult.mk0 "demo" 3).applyCalls callsFixture).success_rate =
      (if ((AutoRunResult.mk0 "demo" 3).applyCalls callsFixture).executed_tasks = 0
       then 0
       else
        (((AutoRunResult.mk0 "demo" 3).applyCalls callsFixture).successful_tasks : ℚ) /
        (((AutoRunResult.mk0 "demo" 3).applyCalls callsFixture).executed_tasks : ℚ)) ∧
    (((AutoRunResult.mk0 "demo" 3).applyCalls callsFixture).is_successful = true ↔
      (((AutoRunResult.mk0 "demo" 3).applyCalls callsFixture).failed_tasks = 0 ∧
       0 < ((AutoRunResult.mk0 "demo" 3).applyCalls callsFixture).executed_tasks)) :=
  c4_auto_run_result_invariant "demo" 3 callsFixture (by decide)

/-! ### C10 auxiliary lemmas -/

theorem idListsOk_update (now : Int) (s : ExecutionState) (tr : TaskResult)
    (h : s.idListsOk) : (updateExecutionState now s tr).idListsOk := by
  obtain ⟨hn1, hn2, hn3, hd12, hd13, hd23⟩ := h
  set tid := tr.task_id with htid
  have hn1' : (s.completed_task_ids.erase tid).Nodup := hn1.erase tid
  have hn2' : (s.failed_task_ids.erase tid).Nodup := hn2.erase tid
  have hn3' : (s.skipped_task_ids.erase tid).Nodup := hn3.erase tid
  have hm1 : tid ∉ s.completed_task_ids.erase tid := hn1.not_mem_erase
  have hm2 : tid ∉ s.failed_task_ids.erase tid := hn2.not_mem_erase
  have hm3 : tid ∉ s.skipped_task_ids.erase tid := hn3.not_mem_erase
  have hd12' : ∀ x ∈ s.completed_task_ids.erase tid,
      x ∉ s.failed_task_ids.erase tid := fun x hx hx' =>
    hd12 x (List.mem_of_mem_erase hx) (List.mem_of_mem_erase hx')
  have hd13' : ∀ x ∈ s.completed_task_ids.erase tid,
      x ∉ s.skipped_task_ids.erase tid := fun x hx hx' =>
    hd13 x (List.mem_of_mem_erase hx) (List.mem_of_mem_erase hx')
  have hd23' : ∀ x ∈ s.failed_task_ids.erase tid,
      x ∉ s.skipped_task_ids.erase tid := fun x hx hx' =>
    hd23 x (List.mem_of_mem_erase hx) (List.mem_of_mem_erase hx')
  unfold updateExecutionState ExecutionState.idListsOk
  split
  · -- SUCCESS: append to completed
    refine ⟨?_, hn2', hn3', ?_, ?_, hd23'⟩
    · simp only [List.nodup_append, List.nodup_cons, List.nodup_nil]
      exact ⟨hn1', by simp, by simp [List.disjoint_singleton, hm1, htid]⟩
    · intro x hx
      rcases List.mem_append.mp hx with hx | hx
      · exact hd12' x hx
      · simp at hx; subst hx; exact hm2
    · intro x hx
      rcases List.mem_append.mp hx with hx | hx
      · exact hd13' x hx
      · simp at hx; subst hx; exact hm3
  · split
    · -- FAILED: append to failed
      refine ⟨hn1', ?_, hn3', ?_, hd13', ?_⟩
      · simp only [List.nodup_append, List.nodup_cons, List.nodup_nil]
        exact ⟨hn2', by simp, by simp [List.disjoint_singleton, hm2, htid]⟩
      · intro x hx hx'
        rcases List.mem_append.mp hx' with hx' | hx'
        · exact hd12' x hx hx'
        · simp at hx'; subst hx'; exact hm1 hx
      · intro x hx
        rcases List.mem_append.mp hx with hx | hx
        · exact hd23' x hx
        · simp at hx; subst hx; exact hm3
    · split
      · -- SKIPPED: append to skipped
        refine ⟨hn1', hn2', ?_, hd12', ?_, ?_⟩
        · simp only [List.nodup_append, List.nodup_cons, List.nodup_nil]
          exact ⟨hn3', by simp, by simp [List.disjoint_singleton, hm3, htid]⟩
        · intro x hx hx'
          rcases List.mem_append.mp hx' with hx' | hx'
          · exact hd13' x hx hx'
          · simp at hx'; subst hx'; exact hm1 hx
        · intro x hx hx'
          rcases List.mem_append.mp hx' with hx' | hx'
          · exact hd23' x hx hx'
          · simp at hx'; subst hx'; exact hm2 hx
      · -- RUNNING/PENDING: no list changes
        exact ⟨hn1', hn2', hn3', hd12', hd13', hd23'⟩

/-- **C10** (confirmed): starting from any execution state whose three id
lists are duplicate-free and pairwise disjoint (in particular the freshly
initialized state with empty lists), every sequence of
`_update_execution_state` calls — retries of the same task id included —
leaves `completed_task_ids`, `failed_task_ids` and `skipped_task_ids`
duplicate-free and pairwise disjoint, because each update first erases the
task id from all three lists and only then appends it to the list matching
the new status. -/
theorem c10_id_lists_invariant (init : ExecutionState) (h : init.idListsOk)
    (steps : List (Int × TaskResult)) :
    (applyExecutionUpdates init steps).idListsOk := by
  induction steps generalizing init with
  | nil => exact h
  | cons p ps ih =>
    exact ih (updateExecutionState p.1 init p.2) (idListsOk_update p.1 init p.2 h)

/-- The freshly initialized execution state (empty id lists). -/
def initialState : ExecutionState :=
  { spec_name := "demo"
    start_time := 1
    last_updated := 1
    options := optionsFixture
    completed_task_ids := []
    failed_task_ids := []
    skipped_task_ids := []
    current_task_id := none
    total_tasks := 3
    interruption_reason := none }

/-- A retry scenario: task `1` fails, is retried to success, task `2` is
skipped and then retried to success as well. -/
def retrySteps : List (Int × TaskResult) :=
  [(10, { task_id := "1", task_description := "a",
          status := TaskStatus.failed }),
   (11, { task_id := "1", task_description := "a",
          status := TaskStatus.success }),
   (12, { task_id := "2", task_description := "b",
          status := TaskStatus.skipped }),
   (13, { task_id := "2", task_description := "b",
          status := TaskStatus.success })]

/-- Witness for `c10_id_lists_invariant` on a concrete retry sequence. -/
theorem c10_id_lists_witness :
    (applyExecutionUpdates initialState retrySteps).idListsOk :=
  c10_id_lists_invariant initialState (by decide) retrySteps

/-! ### C8 auxiliary lemmas -/

theorem status_after_design_ne (req des : Option String) :
    status_after_design req des ≠ "in-progress" ∧
    status_after_design req des ≠ "completed" := by
  rcases req with _ | rc <;> rcases des with _ | dc <;>
    simp [status_after_design, status_after_requirements] <;>
    split_ifs <;> simp

/-- **C8** (counterexample): with an approved requirements document, a design
document that exists but lacks the `✅ APPROVED` marker, and no tasks
document, the reported status stays `design` — refuting the claim that the
status "enters `tasks` once a design document exists". -/
theorem c8_counterexample_design_without_marker :
    spec_status (some "# Requirements\n✅ APPROVED")
      (some "# Design document\nno marker here") none = "design" ∧
    ("design" : String) ≠ "tasks" := by
  exact ⟨by decide, by decide⟩

/-- **C8** (corrected): for every spec whose requirements document carries an
approval marker, the status enters `tasks` once a design document exists
**and itself contains `✅ APPROVED`** (with no tasks document present the
status is `tasks` exactly when the design document carries the marker, and
stays `design` otherwise); and the statuses past `tasks` (`in-progress`,
`completed`) are reached only when a tasks document exists, contains
`✅ APPROVED`, and has a positive completed-task count — the design marker
gates entering `tasks`, not leaving it. -/
theorem c8_status_progression :
    (∀ rc dc : String,
      (containsSub approvedMark rc.data ||
        containsSub reqApprovedMark rc.data) = true →
      spec_status (some rc) (some dc) none =
        (if containsSub approvedMark dc.data then "tasks" else "design")) ∧
    (∀ (req des tsk : Option String),
      spec_status req des tsk = "in-progress" ∨
      spec_status req des tsk = "completed" →
      ∃ tc : String, tsk = some tc ∧
        containsSub approvedMark tc.data = true ∧
        0 < (parseTaskChecks tc.data).count true) := by
  constructor
  · intro rc dc h
    simp only [spec_status, status_after_design, status_after_requirements, h,
      if_true]
  · intro req des tsk h
    cases tsk with
    | none =>
      exfalso
      obtain ⟨hne1, hne2⟩ := status_after_design_ne req des
      simp only [spec_status] at h
      rcases h with h | h
      · exact hne1 h
      · exact hne2 h
    | some tc =>
      simp only [spec_status] at h
      split at h
      · split at h
        · simp at h
        · split at h
          · refine ⟨tc, rfl, by assumption, ?_⟩
            omega
          · refine ⟨tc, rfl, by assumption, ?_⟩
            omega
      · exfalso
        obtain ⟨hne1, hne2⟩ := status_after_design_ne req des
        rcases h with h | h
        · exact hne1 h
        · exact hne2 h

/-- Witness for `c8_status_progression`: the first part applied at an
approved requirements document and an unapproved design document. -/
theorem c8_status_witness :
    spec_status (some "✅ APPROVED") (some "plain design") none =
      (if containsSub approvedMark "plain design".data then "tasks"
       else "design") :=
  c8_status_progression.1 "✅ APPROVED" "plain design" (by decide)

/-! ### C7 auxiliary lemmas -/

theorem isPrefixOf_cons_eq (a b : Char) (as bs : List Char) :
    (a :: as).isPrefixOf (b :: bs) = (a == b && as.isPrefixOf bs) := rfl

theorem containsSub_cons_eq (pat : List Char) (c : Char) (cs : List Char) :
    containsSub pat (c :: cs) =
      (pat.isPrefixOf (c :: cs) || containsSub pat cs) := rfl

theorem isPrefixOf_length_le :
    ∀ (a b : List Char), a.isPrefixOf b = true → a.length ≤ b.length := by
  intro a
  induction a with
  | nil => intro b _; simp
  | cons x xs ih =>
    intro b h
    cases b with
    | nil => simp [List.isPrefixOf] at h
    | cons y ys =>
      rw [isPrefixOf_cons_eq, Bool.and_eq_true] at h
      simp only [List.length_cons]
      exact Nat.succ_le_succ (ih ys h.2)

theorem isPrefixOf_append_self :
    ∀ (a b : List Char), a.isPrefixOf (a ++ b) = true := by
  intro a b
  induction a with
  | nil => simp [List.isPrefixOf]
  | cons x xs ih => simp [isPrefixOf_cons_eq, ih]

theorem isPrefixOf_exists_append :
    ∀ (a b : List Char), a.isPrefixOf b = true → ∃ t, b = a ++ t := by
  intro a
  induction a with
  | nil => exact fun b _ => ⟨b, rfl⟩
  | cons x xs ih =>
    intro b h
    cases b with
    | nil => simp [List.isPrefixOf] at h
    | cons y ys =>
      rw [isPrefixOf_cons_eq, Bool.and_eq_true, beq_iff_eq] at h
      obtain ⟨t, ht⟩ := ih ys h.2
      exact ⟨t, by simp [h.1, ht]⟩

/-- A `.git`-free character list followed by `.git` has no `.git` occurrence
spanning the boundary: the concatenation's head cannot start a `.git`
match. -/
theorem not_isPrefixOf_boundary (c : Char) (p : List Char)
    (h : containsSub dotGit (c :: p) = false) :
    dotGit.isPrefixOf (c :: (p ++ dotGit)) = false := by
  have h0 : dotGit.isPrefixOf (c :: p) = false := by
    rw [containsSub_cons_eq] at h
    exact (Bool.or_eq_false_iff.mp h).1
  by_contra hcon
  rw [Bool.not_eq_false] at hcon
  rcases p with _ | ⟨c2, p2⟩
  · simp [dotGit, isPrefixOf_cons_eq, List.isPrefixOf] at hcon
  · rcases p2 with _ | ⟨c3, p3⟩
    · simp [dotGit, isPrefixOf_cons_eq, List.isPrefixOf] at hcon
    · rcases p3 with _ | ⟨c4, p4⟩
      · simp [dotGit, isPrefixOf_cons_eq, List.isPrefixOf] at hcon
      · simp only [dotGit, List.cons_append, isPrefixOf_cons_eq,
          Bool.and_eq_true, beq_iff_eq] at hcon
        obtain ⟨e1, e2, e3, e4, _⟩ := hcon
        subst e1; subst e2; subst e3; subst e4
        simp [dotGit, isPrefixOf_cons_eq, List.isPrefixOf] at h0

theorem stripDotGitAux_nil (fuel : Nat) : stripDotGitAux fuel [] = [] := by
  cases fuel <;> rfl

theorem stripDotGitAux_append_git :
    ∀ (p : List Char) (fuel : Nat), containsSub dotGit p = false →
      p.length + 4 ≤ fuel → stripDotGitAux fuel (p ++ dotGit) = p := by
  intro p
  induction p with
  | nil =>
    intro fuel _ hf
    obtain ⟨f, rfl⟩ : ∃ f, fuel = f + 1 := by
      cases fuel
      · omega
      · exact ⟨_, rfl⟩
    show stripDotGitAux (f + 1) dotGit = []
    rw [show (dotGit : List Char) = '.' :: ['g', 'i', 't'] from rfl]
    simp only [stripDotGitAux]
    rw [if_pos (by decide)]
    simp [stripDotGitAux_nil]
  | cons c p' ih =>
    intro fuel h hf
    obtain ⟨f, rfl⟩ : ∃ f, fuel = f + 1 := by
      cases fuel
      · omega
      · exact ⟨_, rfl⟩
    have h' : containsSub dotGit p' = false := by
      rw [containsSub_cons_eq] at h
      exact (Bool.or_eq_false_iff.mp h).2
    rw [List.cons_append]
    simp only [stripDotGitAux]
    rw [if_neg (by simp [not_isPrefixOf_boundary c p' h])]
    rw [ih f h' (by simpa using Nat.le_of_succ_le_succ hf)]

/-- `str.replace('.git', '')` on a `.git`-free path followed by `.git`
removes exactly the trailing `.git`. -/
theorem stripDotGit_append_git (p : List Char)
    (h : containsSub dotGit p = false) :
    stripDotGit (p ++ dotGit) = p := by
  unfold stripDotGit
  exact stripDotGitAux_append_git p _ h (by simp [dotGit])

theorem backtrackGit_high (p : List Char) :
    ∀ k, backtrackGit (p ++ dotGit) (p.length + k) =
      backtrackGit (p ++ dotGit) p.length := by
  intro k
  induction k with
  | zero => rfl
  | succ k ih =>
    have hfail :
        dotGit.isPrefixOf ((p ++ dotGit).drop (p.length + k + 1)) = false := by
      by_contra hx
      rw [Bool.not_eq_false] at hx
      have hle := isPrefixOf_length_le _ _ hx
      rw [List.length_drop, List.length_append] at hle
      have h4 : dotGit.length = 4 := rfl
      omega
    rw [show p.length + (k + 1) = (p.length + k) + 1 from rfl]
    simp only [backtrackGit, hfail, Bool.false_and, if_false, reduceIte]
    exact ih

theorem backtrackGit_at (p : List Char) (hp : p ≠ [])
    (hnl : p.contains '\n' = false) :
    backtrackGit (p ++ dotGit) p.length = some (p, []) := by
  obtain ⟨m, hm⟩ : ∃ m, p.length = m + 1 := by
    cases hp2 : p with
    | nil => exact absurd hp2 hp
    | cons a l => exact ⟨l.length, by simp⟩
  have hdrop : (p ++ dotGit).drop p.length = dotGit := List.drop_left p dotGit
  have htake : (p ++ dotGit).take p.length = p := List.take_left p dotGit
  have hdrop4 : (p ++ dotGit).drop (p.length + 4) = [] := by
    apply List.drop_eq_nil_of_le
    simp [dotGit]
  rw [hm] at hdrop htake hdrop4 ⊢
  simp only [backtrackGit]
  rw [if_pos]
  · rw [htake, show m + 1 + 4 = m + 5 from rfl] at *
    rw [hdrop4]
  · rw [hdrop, htake, hnl]
    simp
theorem greedyGitSplit_exact (p : List Char) (hp : p ≠ [])
    (hnl : p.contains '\n' = false) :
    greedyGitSplit (p ++ dotGit) = some (p, []) := by
  unfold greedyGitSplit
  rw [List.length_append, show (dotGit : List Char).length = 4 from rfl]
  rw [backtrackGit_high p 4]
  exact backtrackGit_at p hp hnl

theorem reSubGitAux_nil (head repl : List Char) (fuel : Nat) :
    reSubGitAux head repl fuel [] = [] := by
  cases fuel <;> rfl

theorem reSubGit_exact (hc : Char) (hrest repl p : List Char) (hp : p ≠ [])
    (hnl : p.contains '\n' = false) :
    reSubGit (hc :: hrest) repl ((hc :: hrest) ++ (p ++ dotGit)) =
      repl ++ p := by
  unfold reSubGit
  have hs : (hc :: hrest) ++ (p ++ dotGit) =
      hc :: (hrest ++ (p ++ dotGit)) := by simp
  have hL : ((hc :: hrest) ++ (p ++ dotGit)).length =
      (hrest ++ (p ++ dotGit)).length + 1 := by
    rw [hs, List.length_cons]
  rw [hL, hs]
  simp only [reSubGitAux]
  have hpre : (hc :: hrest).isPrefixOf (hc :: (hrest ++ (p ++ dotGit)))
      = true := by
    rw [← List.cons_append]
    exact isPrefixOf_append_self _ _
  rw [hpre]
  have hdrop : (hc :: (hrest ++ (p ++ dotGit))).drop (hc :: hrest).length =
      p ++ dotGit := by
    rw [← List.cons_append]
    exact List.drop_left _ _
  simp only [if_true, hdrop, greedyGitSplit_exact p hp hnl,
    reSubGitAux_nil, List.append_nil]

theorem matchesHost_true (hc : Char) (hrest p : List Char) (hp : p ≠ [])
    (hnl : p.contains '\n' = false) :
    matchesHostPattern (hc :: hrest) ((hc :: hrest) ++ (p ++ dotGit))
      = true := by
  unfold matchesHostPattern
  rw [isPrefixOf_append_self, List.drop_left,
    greedyGitSplit_exact p hp hnl]
  rfl

theorem matchesHost_false (head s : List Char)
    (h : head.isPrefixOf s = false) : matchesHostPattern head s = false := by
  simp [matchesHostPattern, h]

theorem applyHost_hit (hc : Char) (hrest repl : List Char)
    (ps : List (List Char × List Char)) (p : List Char) (hp : p ≠ [])
    (hnl : p.contains '\n' = false) :
    applyHostPatterns ((hc :: hrest, repl) :: ps)
      ((hc :: hrest) ++ (p ++ dotGit)) = some (repl ++ p) := by
  simp only [applyHostPatterns, matchesHost_true hc hrest p hp hnl, if_true]
  rw [reSubGit_exact hc hrest repl p hp hnl]

theorem applyHost_miss (head repl : List Char)
    (ps : List (List Char × List Char)) (s : List Char)
    (h : matchesHostPattern head s = false) :
    applyHostPatterns ((head, repl) :: ps) s = applyHostPatterns ps s := by
  simp [applyHostPatterns, h]

theorem dataGithubSsh : "git@github.com:".data =
    ['g','i','t','@','g','i','t','h','u','b','.','c','o','m',':'] := rfl

theorem dataGithubHttps : "https://github.com/".data =
    ['h','t','t','p','s',':','/','/','g','i','t','h','u','b','.','c','o','m','/'] := rfl

theorem dataGitlabSsh : "git@gitlab.com:".data =
    ['g','i','t','@','g','i','t','l','a','b','.','c','o','m',':'] := rfl

theorem dataGitlabHttps : "https://gitlab.com/".data =
    ['h','t','t','p','s',':','/','/','g','i','t','l','a','b','.','c','o','m','/'] := rfl

theorem dataBitbucketSsh : "git@bitbucket.org:".data =
    ['g','i','t','@','b','i','t','b','u','c','k','e','t','.','o','r','g',':'] := rfl

theorem dataBitbucketHttps : "https://bitbucket.org/".data =
    ['h','t','t','p','s',':','/','/','b','i','t','b','u','c','k','e','t','.','o','r','g','/'] := rfl

theorem dataDotGit : ".git".data = dotGit := rfl

theorem string_mk_append (a b : String) :
    String.mk (a.data ++ b.data) = a ++ b := rfl

theorem convert_github_ssh (p : String)
    (h : containsSub dotGit p.data = false) :
    convert_to_github_url ("git@github.com:" ++ p ++ ".git") =
      some ("https://github.com/" ++ p) := by
  have hdata : ("git@github.com:" ++ p ++ ".git").data =
      "git@github.com:".data ++ (p.data ++ dotGit) := by
    simp [String.data_append, dotGit]
  have hne : "git@github.com:".data ++ (p.data ++ dotGit) ≠ [] := by
    rw [dataGithubSsh]; simp
  have hpre : "git@github.com:".data.isPrefixOf
      ("git@github.com:".data ++ (p.data ++ dotGit)) = true :=
    isPrefixOf_append_self _ _
  have hdrop : ("git@github.com:".data ++ (p.data ++ dotGit)).drop
      "git@github.com:".data.length = p.data ++ dotGit := List.drop_left _ _
  simp only [convert_to_github_url, hdata, hne, hpre, hdrop, if_true,
    if_false, reduceIte, ne_eq, not_false_eq_true]
  rw [stripDotGit_append_git p.data h, string_mk_append]

theorem dataFtp : "ftp://".data = ['f','t','p',':','/','/'] := rfl

theorem containsSub_github_https_head (p : List Char)
    (h : containsSub dotGit p = false) :
    containsSub dotGit ("https://github.com/".data ++ p) = false := by
  have hu : containsSub ['.', 'g', 'i', 't'] p = false := h
  rw [dataGithubHttps]
  simp [containsSub_cons_eq, isPrefixOf_cons_eq, dotGit, List.isPrefixOf, hu]

theorem convert_github_https (p : String)
    (h : containsSub dotGit p.data = false) :
    convert_to_github_url ("https://github.com/" ++ p ++ ".git") =
      some ("https://github.com/" ++ p) := by
  have hdata : ("https://github.com/" ++ p ++ ".git").data =
      "https://github.com/".data ++ (p.data ++ dotGit) := by
    simp [String.data_append, dotGit]
  have hne : "https://github.com/".data ++ (p.data ++ dotGit) ≠ [] := by
    rw [dataGithubHttps]; simp
  have hpre1 : "git@github.com:".data.isPrefixOf
      ("https://github.com/".data ++ (p.data ++ dotGit)) = false := by
    rw [dataGithubSsh, dataGithubHttps]
    simp [isPrefixOf_cons_eq]
  have hpre2 : "https://github.com/".data.isPrefixOf
      ("https://github.com/".data ++ (p.data ++ dotGit)) = true :=
    isPrefixOf_append_self _ _
  simp only [convert_to_github_url, hdata, hne, hpre1, hpre2, if_true,
    if_false, reduceIte, ne_eq, not_false_eq_true, Bool.false_eq_true]
  rw [← List.append_assoc,
    stripDotGit_append_git _ (containsSub_github_https_head p.data h),
    string_mk_append]

theorem convert_gitlab_ssh (p : String) (hp : p ≠ "")
    (hnl : p.data.contains '\n' = false) :
    convert_to_github_url ("git@gitlab.com:" ++ p ++ ".git") =
      some ("https://gitlab.com/" ++ p) := by
  have hpd : p.data ≠ [] := by
    intro hx
    apply hp
    calc p = String.mk p.data := rfl
    _ = String.mk [] := by rw [hx]
    _ = "" := rfl
  have hdata : ("git@gitlab.com:" ++ p ++ ".git").data =
      "git@gitlab.com:".data ++ (p.data ++ dotGit) := by
    simp [String.data_append, dotGit]
  have hne : "git@gitlab.com:".data ++ (p.data ++ dotGit) ≠ [] := by
    rw [dataGitlabSsh]; simp
  have hpre1 : "git@github.com:".data.isPrefixOf
      ("git@gitlab.com:".data ++ (p.data ++ dotGit)) = false := by
    rw [dataGithubSsh, dataGitlabSsh]
    simp [isPrefixOf_cons_eq]
  have hpre2 : "https://github.com/".data.isPrefixOf
      ("git@gitlab.com:".data ++ (p.data ++ dotGit)) = false := by
    rw [dataGithubHttps, dataGitlabSsh]
    simp [isPrefixOf_cons_eq]
  simp only [convert_to_github_url, hdata, hne, hpre1, hpre2, if_true,
    if_false, reduceIte, ne_eq, not_false_eq_true, Bool.false_eq_true,
    hostPatterns]
  rw [applyHost_hit 'g'
    ['i','t','@','g','i','t','l','a','b','.','c','o','m',':']
    ['h','t','t','p','s',':','/','/','g','i','t','l','a','b','.','c','o','m','/']
    _ p.data hpd hnl]
  simp only [Option.map_some']
  rw [← dataGitlabHttps, string_mk_append]

theorem convert_gitlab_https (p : String) (hp : p ≠ "")
    (hnl : p.data.contains '\n' = false) :
    convert_to_github_url ("https://gitlab.com/" ++ p ++ ".git") =
      some ("https://gitlab.com/" ++ p) := by
  have hpd : p.data ≠ [] := by
    intro hx
    apply hp
    calc p = String.mk p.data := rfl
    _ = String.mk [] := by rw [hx]
    _ = "" := rfl
  have hdata : ("https://gitlab.com/" ++ p ++ ".git").data =
      "https://gitlab.com/".data ++ (p.data ++ dotGit) := by
    simp [String.data_append, dotGit]
  have hne : "https://gitlab.com/".data ++ (p.data ++ dotGit) ≠ [] := by
    rw [dataGitlabHttps]; simp
  have hpre1 : "git@github.com:".data.isPrefixOf
      ("https://gitlab.com/".data ++ (p.data ++ dotGit)) = false := by
    rw [dataGithubSsh, dataGitlabHttps]
    simp [isPrefixOf_cons_eq]
  have hpre2 : "https://github.com/".data.isPrefixOf
      ("https://gitlab.com/".data ++ (p.data ++ dotGit)) = false := by
    rw [dataGithubHttps, dataGitlabHttps]
    simp [isPrefixOf_cons_eq]
  have hm1 : matchesHostPattern
      ['g','i','t','@','g','i','t','l','a','b','.','c','o','m',':']
      (['h','t','t','p','s',':','/','/','g','i','t','l','a','b','.','c','o','m','/']
        ++ (p.data ++ dotGit)) = false := by
    apply matchesHost_false
    simp [isPrefixOf_cons_eq]
  simp only [convert_to_github_url, hdata, hne, hpre1, hpre2, if_true,
    if_false, reduceIte, ne_eq, not_false_eq_true, Bool.false_eq_true,
    hostPatterns]
  rw [applyHost_miss _ _ _ _ hm1]
  rw [applyHost_hit 'h'
    ['t','t','p','s',':','/','/','g','i','t','l','a','b','.','c','o','m','/']
    ['h','t','t','p','s',':','/','/','g','i','t','l','a','b','.','c','o','m','/']
    _ p.data hpd hnl]
  simp only [Option.map_some']
  rw [← dataGitlabHttps, string_mk_append]

theorem convert_bitbucket_ssh (p : String) (hp : p ≠ "")
    (hnl : p.data.contains '\n' = false) :
    convert_to_github_url ("git@bitbucket.org:" ++ p ++ ".git") =
      some ("https://bitbucket.org/" ++ p) := by
  have hpd : p.data ≠ [] := by
    intro hx
    apply hp
    calc p = String.mk p.data := rfl
    _ = String.mk [] := by rw [hx]
    _ = "" := rfl
  have hdata : ("git@bitbucket.org:" ++ p ++ ".git").data =
      "git@bitbucket.org:".data ++ (p.data ++ dotGit) := by
    simp [String.data_append, dotGit]
  have hne : "git@bitbucket.org:".data ++ (p.data ++ dotGit) ≠ [] := by
    rw [dataBitbucketSsh]; simp
  have hpre1 : "git@github.com:".data.isPrefixOf
      ("git@bitbucket.org:".data ++ (p.data ++ dotGit)) = false := by
    rw [dataGithubSsh, dataBitbucketSsh]
    simp [isPrefixOf_cons_eq]
  have hpre2 : "https://github.com/".data.isPrefixOf
      ("git@bitbucket.org:".data ++ (p.data ++ dotGit)) = false := by
    rw [dataGithubHttps, dataBitbucketSsh]
    simp [isPrefixOf_cons_eq]
  have hm1 : matchesHostPattern
      ['g','i','t','@','g','i','t','l','a','b','.','c','o','m',':']
      (['g','i','t','@','b','i','t','b','u','c','k','e','t','.','o','r','g',':']
        ++ (p.data ++ dotGit)) = false := by
    apply matchesHost_false
    simp [isPrefixOf_cons_eq]
  have hm2 : matchesHostPattern
      ['h','t','t','p','s',':','/','/','g','i','t','l','a','b','.','c','o','m','/']
      (['g','i','t','@','b','i','t','b','u','c','k','e','t','.','o','r','g',':']
        ++ (p.data ++ dotGit)) = false := by
    apply matchesHost_false
    simp [isPrefixOf_cons_eq]
  simp only [convert_to_github_url, hdata, hne, hpre1, hpre2, if_true,
    if_false, reduceIte, ne_eq, not_false_eq_true, Bool.false_eq_true,
    hostPatterns]
  rw [applyHost_miss _ _ _ _ hm1, applyHost_miss _ _ _ _ hm2]
  rw [applyHost_hit 'g'
    ['i','t','@','b','i','t','b','u','c','k','e','t','.','o','r','g',':']
    ['h','t','t','p','s',':','/','/','b','i','t','b','u','c','k','e','t','.','o','r','g','/']
    _ p.data hpd hnl]
  simp only [Option.map_some']
  rw [← dataBitbucketHttps, string_mk_append]

theorem convert_bitbucket_https (p : String) (hp : p ≠ "")
    (hnl : p.data.contains '\n' = false) :
    convert_to_github_url ("https://bitbucket.org/" ++ p ++ ".git") =
      some ("https://bitbucket.org/" ++ p) := by
  have hpd : p.data ≠ [] := by
    intro hx
    apply hp
    calc p = String.mk p.data := rfl
    _ = String.mk [] := by rw [hx]
    _ = "" := rfl
  have hdata : ("https://bitbucket.org/" ++ p ++ ".git").data =
      "https://bitbucket.org/".data ++ (p.data ++ dotGit) := by
    simp [String.data_append, dotGit]
  have hne : "https://bitbucket.org/".data ++ (p.data ++ dotGit) ≠ [] := by
    rw [dataBitbucketHttps]; simp
  have hpre1 : "git@github.com:".data.isPrefixOf
      ("https://bitbucket.org/".data ++ (p.data ++ dotGit)) = false := by
    rw [dataGithubSsh, dataBitbucketHttps]
    simp [isPrefixOf_cons_eq]
  have hpre2 : "https://github.com/".data.isPrefixOf
      ("https://bitbucket.org/".data ++ (p.data ++ dotGit)) = false := by
    rw [dataGithubHttps, dataBitbucketHttps]
    simp [isPrefixOf_cons_eq]
  have hm1 : matchesHostPattern
      ['g','i','t','@','g','i','t','l','a','b','.','c','o','m',':']
      (['h','t','t','p','s',':','/','/','b','i','t','b','u','c','k','e','t','.','o','r','g','/']
        ++ (p.data ++ dotGit)) = false := by
    apply matchesHost_false
    simp [isPrefixOf_cons_eq]
  have hm2 : matchesHostPattern
      ['h','t','t','p','s',':','/','/','g','i','t','l','a','b','.','c','o','m','/']
      (['h','t','t','p','s',':','/','/','b','i','t','b','u','c','k','e','t','.','o','r','g','/']
        ++ (p.data ++ dotGit)) = false := by
    apply matchesHost_false
    simp [isPrefixOf_cons_eq]
  have hm3 : matchesHostPattern
      ['g','i','t','@','b','i','t','b','u','c','k','e','t','.','o','r','g',':']
      (['h','t','t','p','s',':','/','/','b','i','t','b','u','c','k','e','t','.','o','r','g','/']
        ++ (p.data ++ dotGit)) = false := by
    apply matchesHost_false
    simp [isPrefixOf_cons_eq]
  simp only [convert_to_github_url, hdata, hne, hpre1, hpre2, if_true,
    if_false, reduceIte, ne_eq, not_false_eq_true, Bool.false_eq_true,
    hostPatterns]
  rw [applyHost_miss _ _ _ _ hm1, applyHost_miss _ _ _ _ hm2,
    applyHost_miss _ _ _ _ hm3]
  rw [applyHost_hit 'h'
    ['t','t','p','s',':','/','/','b','i','t','b','u','c','k','e','t','.','o','r','g','/']
    ['h','t','t','p','s',':','/','/','b','i','t','b','u','c','k','e','t','.','o','r','g','/']
    _ p.data hpd hnl]
  simp only [Option.map_some']
  rw [← dataBitbucketHttps, string_mk_append]

theorem convert_ftp (s : String)
    (h : "ftp://".data.isPrefixOf s.data = true) :
    convert_to_github_url s = none := by
  obtain ⟨t, ht⟩ := isPrefixOf_exists_append _ _ h
  rw [dataFtp] at ht
  have hne : s.data ≠ [] := by rw [ht]; simp
  have hpre1 : "git@github.com:".data.isPrefixOf s.data = false := by
    rw [dataGithubSsh, ht]
    simp [isPrefixOf_cons_eq]
  have hpre2 : "https://github.com/".data.isPrefixOf s.data = false := by
    rw [dataGithubHttps, ht]
    simp [isPrefixOf_cons_eq]
  have hm : ∀ head : List Char, head.isPrefixOf s.data = false →
      matchesHostPattern head s.data = false := fun head hh =>
    matchesHost_false head s.data hh
  simp only [convert_to_github_url, hne, hpre1, hpre2, if_true, if_false,
    reduceIte, ne_eq, not_false_eq_true, Bool.false_eq_true, hostPatterns]
  rw [applyHost_miss _ _ _ _ (hm _ (by rw [ht]; simp [isPrefixOf_cons_eq])),
    applyHost_miss _ _ _ _ (hm _ (by rw [ht]; simp [isPrefixOf_cons_eq])),
    applyHost_miss _ _ _ _ (hm _ (by rw [ht]; simp [isPrefixOf_cons_eq])),
    applyHost_miss _ _ _ _ (hm _ (by rw [ht]; simp [isPrefixOf_cons_eq])),
    applyHost_miss _ _ _ _ (hm _ (by rw [ht]; simp [isPrefixOf_cons_eq])),
    applyHost_miss _ _ _ _ (hm _ (by rw [ht]; simp [isPrefixOf_cons_eq]))]
  rfl

/-- **C7** (counterexample): the claim that the HTTPS form strips *only the
trailing* `.git` is false: `str.replace('.git', '')` removes every
occurrence, so `https://github.com/acme/acme.github.io.git` is mangled to
`https://github.com/acme/acmehub.io` instead of
`https://github.com/acme/acme.github.io` (the SSH github form mangles the
same path identically). -/
theorem c7_counterexample_internal_dotgit :
    convert_to_github_url "https://github.com/acme/acme.github.io.git" =
      some "https://github.com/acme/acmehub.io" ∧
    convert_to_github_url "git@github.com:acme/acme.github.io.git" =
      some "https://github.com/acme/acmehub.io" ∧
    ("https://github.com/acme/acmehub.io" : String) ≠
      "https://github.com/acme/acme.github.io" := by
  refine ⟨by decide, by decide, by decide⟩

/-- **C7** (corrected): for every path in which `.git` occurs only as the
trailing suffix, the SSH form `git@github.com:path.git` maps to
`https://github.com/path` and the HTTPS form `https://github.com/path.git`
maps to `https://github.com/path` (for paths containing `.git` internally
the github branches remove *every* occurrence, per the counterexample); the
equivalent SSH/HTTPS forms for `gitlab.com` and `bitbucket.org` normalize
the same way for every non-empty newline-free path (their regexes strip
exactly the trailing `.git`); and a URL of another host such as an `ftp://`
remote yields absent. -/
theorem c7_url_normalization :
    (∀ p : String, containsSub dotGit p.data = false →
      convert_to_github_url ("git@github.com:" ++ p ++ ".git") =
        some ("https://github.com/" ++ p)) ∧
    (∀ p : String, containsSub dotGit p.data = false →
      convert_to_github_url ("https://github.com/" ++ p ++ ".git") =
        some ("https://github.com/" ++ p)) ∧
    (∀ p : String, p ≠ "" → p.data.contains '\n' = false →
      convert_to_github_url ("git@gitlab.com:" ++ p ++ ".git") =
        some ("https://gitlab.com/" ++ p)) ∧
    (∀ p : String, p ≠ "" → p.data.contains '\n' = false →
      convert_to_github_url ("https://gitlab.com/" ++ p ++ ".git") =
        some ("https://gitlab.com/" ++ p)) ∧
    (∀ p : String, p ≠ "" → p.data.contains '\n' = false →
      convert_to_github_url ("git@bitbucket.org:" ++ p ++ ".git") =
        some ("https://bitbucket.org/" ++ p)) ∧
    (∀ p : String, p ≠ "" → p.data.contains '\n' = false →
      convert_to_github_url ("https://bitbucket.org/" ++ p ++ ".git") =
        some ("https://bitbucket.org/" ++ p)) ∧
    (∀ s : String, "ftp://".data.isPrefixOf s.data = true →
      convert_to_github_url s = none) :=
  ⟨convert_github_ssh, convert_github_https, convert_gitlab_ssh,
    convert_gitlab_https, convert_bitbucket_ssh, convert_bitbucket_https,
    convert_ftp⟩

/-- Witness for `c7_url_normalization` at the spec's concrete examples. -/
theorem c7_url_witness :
    convert_to_github_url ("git@github.com:" ++ "acme/widgets" ++ ".git") =
      some ("https://github.com/" ++ "acme/widgets") ∧
    convert_to_github_url ("https://github.com/" ++ "acme/widgets" ++ ".git") =
      some ("https://github.com/" ++ "acme/widgets") ∧
    convert_to_github_url ("git@gitlab.com:" ++ "acme/widgets" ++ ".git") =
      some ("https://gitlab.com/" ++ "acme/widgets") ∧
    convert_to_github_url ("https://bitbucket.org/" ++ "acme/widgets" ++ ".git") =
      some ("https://bitbucket.org/" ++ "acme/widgets") ∧
    convert_to_github_url "ftp://example.com/repo.git" = none :=
  ⟨c7_url_normalization.1 "acme/widgets" (by decide),
   c7_url_normalization.2.1 "acme/widgets" (by decide),
   c7_url_normalization.2.2.1 "acme/widgets" (by decide) (by decide),
   c7_url_normalization.2.2.2.2.2.1 "acme/widgets" (by decide) (by decide),
   c7_url_normalization.2.2.2.2.2.2 "ftp://example.com/repo.git" (by decide)⟩
